import Mathlib

/-!
maistra-test-tool: command execution, retry, template helpers and SMCP lifecycle.

A shallow embedding of

* `pkg/util/testUtil.go` (`RunTemplate`, `indent`, `toYaml`, `perArch`, `until`),
* `maistra/utils_ocp.go` (`ocCommand`, `OcApply`, `OcDelete`, `GetOCPIngressgateway`,
  `GetSecureIngressPort`, `GetTCPIngressPort`),
* `pkg/util/shell/shell_helper.go` (`ExecuteWithEnvAndInput`, `appendNewLine`, `execShellCommand`),
* `pkg/ossm/smcp_install.go` (the install and upgrade steps of `TestSMCPInstall`),

together with a model of the part of Go's `fmt.Sprintf` those functions rely on.

Go strings are modelled as Lean `String`s (sequences of Unicode characters), Go `int`s as `Int`,
a nillable `error` as `Option String` (the error's message).
-/

namespace MaistraTestTool

/-! ## Abnormal termination -/

/-- The ways an execution ends without returning a value. -/
inductive Stop where
  /-- Go `panic(msg)`. -/
  | panic (msg : String)
  /-- The test helper's `Fatalf`: the message is logged and the test stops at once. -/
  | fatal (msg : String)
  /-- The execution used a directive of `fmt` outside the fragment modelled below. -/
  | unmodelled
deriving DecidableEq, Repr

deriving instance DecidableEq for Except

/-! ## Go's `fmt.Sprintf`

The model follows `doPrintf` of Go's `fmt/print.go` for operands that are strings or ints.
Modelled: literal text, the flags `# 0 + - space`, a decimal width (with the `tooLarge` guard of
`parsenum`), the verbs `%%`, `%s`, `%v`, `%d`, and the diagnostics `%!(NOVERB)`, `%!x(MISSING)`
and `%!(EXTRA ...)`. Explicit argument indexes `[n]`, `*` widths, precisions, the remaining verbs
and zero padding of strings end in `Stop.unmodelled`.
-/

/-- An operand of `Sprintf`. -/
inductive Arg where
  | str (s : String)
  | int (i : Int)
deriving DecidableEq, Repr

/-- The ASCII character of the decimal digit `d`. -/
def digitChar (d : Nat) : Char := Char.ofNat (48 + d)

/-- Decimal digits of `n`, most significant first; `fuel` bounds the number of digits. -/
def utoaAux : Nat → Nat → List Char
  | 0, n => [digitChar (n % 10)]
  | fuel + 1, n =>
    if n < 10 then [digitChar n] else utoaAux fuel (n / 10) ++ [digitChar (n % 10)]

/-- Decimal rendering of a natural number (`%d` of a non-negative int). -/
def utoa (n : Nat) : List Char := utoaAux n n

/-- Decimal rendering of an int (`%d`). -/
def itoa : Int → List Char
  | .ofNat n => utoa n
  | .negSucc n => '-' :: utoa (n + 1)

/-- The flags of a formatting directive (`fmtFlags` of `fmt/format.go`). -/
structure Flags where
  minus : Bool := false
  plus : Bool := false
  sharp : Bool := false
  space : Bool := false
  zero : Bool := false
deriving DecidableEq, Repr

/-- `tooLarge` of `fmt/print.go`: a width above `1e6` is refused. -/
def tooLarge (x : Nat) : Bool := decide (1000000 < x)

/-- `noVerbString` of `fmt/print.go`. -/
def noVerbString : List Char := "%!(NOVERB)".data

/-- `padString` of `fmt/format.go`: pad `s` to the width, on the left unless the `-` flag is set.
Zero padding of strings differs between Go releases and is left out of the model. -/
def padString (f : Flags) (wid : Option Nat) (s : List Char) : Except Stop (List Char) :=
  match wid with
  | none => pure s
  | some w =>
    if w = 0 then pure s
    else if f.zero then throw Stop.unmodelled
    else if f.minus then pure (s ++ List.replicate (w - s.length) ' ')
    else pure (List.replicate (w - s.length) ' ' ++ s)

/-- `printArg` for the modelled verbs: `%s` and plain `%v` of a string, plain `%d` and `%v` of an
int. -/
def printArg (f : Flags) (wid : Option Nat) (verb : Char) : Arg → Except Stop (List Char)
  | .str s =>
    if verb = 's' then padString f wid s.data
    else if verb = 'v' then
      (if f.sharp || f.plus then throw Stop.unmodelled else padString f wid s.data)
    else throw Stop.unmodelled
  | .int i =>
    if verb = 'd' ∨ verb = 'v' then
      (if f = {} ∧ wid = none then pure (itoa i) else throw Stop.unmodelled)
    else throw Stop.unmodelled

/-- The text written for one operand in the `%!(EXTRA ...)` diagnostic: its type, `=`, and the
operand printed with `%v`. -/
def extraArg : Arg → List Char
  | .str s => "string=".data ++ s.data
  | .int i => "int=".data ++ itoa i

/-- The check at the end of `doPrintf`: operands left over are reported as `%!(EXTRA ...)`. -/
def extra (args : List Arg) : List Char :=
  if args.isEmpty then []
  else "%!(EXTRA ".data ++ List.intercalate ", ".data (args.map extraArg) ++ [')']

/-- The `switch` on the verb at the end of one directive: `%%` consumes no operand, a verb without
an operand left prints `%!verb(MISSING)`, otherwise the next operand is printed. Returns the text
written and the operands left. -/
def verbStep (f : Flags) (wid : Option Nat) (verb : Char) (args : List Arg) :
    Except Stop (List Char × List Arg) :=
  if verb = '%' then pure (['%'], args)
  else
    match args with
    | [] => pure ('%' :: '!' :: verb :: "(MISSING)".data, [])
    | a :: rest => (printArg f wid verb a).map (fun out => (out, rest))

/-- Where `doPrintf` stands in the format: copying literal text, reading the flags after a `%`,
or inside the digits of a width (`num` is the value read so far). -/
inductive Phase where
  | text
  | flags (f : Flags)
  | width (f : Flags) (num : Nat)

/-- The format loop of `doPrintf` of `fmt/print.go`, one character of the format at a time.
In the width digits `parsenum` gives up (`return 0, false, end`) when the value read so far is
`tooLarge` and another digit follows: the rest of the format is skipped and `%!(NOVERB)` is
written, followed by the `%!(EXTRA ...)` report of the unused operands. -/
def doPrintf : Phase → List Char → List Arg → Except Stop (List Char)
  | .text, [], args => pure (extra args)
  | .text, c :: cs, args =>
    if c = '%' then doPrintf (.flags {}) cs args
    else (doPrintf .text cs args).map (fun out => c :: out)
  | .flags _, [], args => pure (noVerbString ++ extra args)
  | .flags f, c :: cs, args =>
    if c = '#' then doPrintf (.flags { f with sharp := true }) cs args
    else if c = '0' then doPrintf (.flags { f with zero := true }) cs args
    else if c = '+' then doPrintf (.flags { f with plus := true }) cs args
    else if c = '-' then doPrintf (.flags { f with minus := true }) cs args
    else if c = ' ' then doPrintf (.flags { f with space := true }) cs args
    else if c = '[' ∨ c = '*' ∨ c = '.' then throw Stop.unmodelled
    else if c.isDigit then doPrintf (.width f (c.toNat - 48)) cs args
    else
      match verbStep f none c args with
      | .error e => .error e
      | .ok (out, args') => (doPrintf .text cs args').map (fun more => out ++ more)
  | .width _ _, [], args => pure (noVerbString ++ extra args)
  | .width f n, c :: cs, args =>
    if c.isDigit then
      (if tooLarge n then pure (noVerbString ++ extra args)
       else doPrintf (.width f (n * 10 + (c.toNat - 48))) cs args)
    else if c = '[' ∨ c = '.' then throw Stop.unmodelled
    else
      match verbStep f (some n) c args with
      | .error e => .error e
      | .ok (out, args') => (doPrintf .text cs args').map (fun more => out ++ more)

/-- Go's `fmt.Sprintf(format, args...)`. -/
def Sprintf (format : String) (args : List Arg) : Except Stop String :=
  (doPrintf .text format.data args).map String.mk

/-! ## `pkg/util/testUtil.go`: `perArch` -/

/-- Modelled from the spec: `env.Getenv` is not among the sources; the architecture selector
is an environment variable with a documented default, used when the variable is unset. The
environment is a lookup from variable names to values. -/
def Getenv (environ : String → Option String) (key fallback : String) : String :=
  match environ key with
  | some v => v
  | none => fallback

/-- The map literal `parameterIndices` of `perArch`. -/
def parameterIndices : List (String × Nat) :=
  [("x86", 0), ("p", 1), ("z", 2), ("arm", 3)]

/-- `perArch(images ...string)`: the image at the position of the architecture read from
`SAMPLEARCH` (default `x86`). `getenv` stands for `env.Getenv`. The two `panic`s are
`Stop.panic` with the formatted message. -/
def perArch (getenv : String → String → String) (images : List String) : Except Stop String :=
  let arch := getenv "SAMPLEARCH" "x86"
  match parameterIndices.lookup arch with
  | none =>
    match Sprintf "unknown architecture: %s" [.str arch] with
    | .ok msg => throw (Stop.panic msg)
    | .error e => throw e
  | some index =>
    if h : index < images.length then pure (images.get ⟨index, h⟩)
    else
      match Sprintf
        "no image specified for %s in perArch function call (should be specified as parameter #%d)"
        [.str arch, .int index] with
      | .ok msg => throw (Stop.panic msg)
      | .error e => throw e

/-- The panic of `perArch` for a selector outside the map (`UnknownArchitecture` in the
specification): recognised by the constant text the panic message starts with. -/
def UnknownArchitecture : Except Stop String → Bool
  | .error (.panic msg) => "unknown architecture: ".data.isPrefixOf msg.data
  | _ => false

/-- The panic of `perArch` for a position beyond the images supplied (`MissingArchImage` in the
specification): recognised by the constant text the panic message starts with. -/
def MissingArchImage : Except Stop String → Bool
  | .error (.panic msg) => "no image specified for ".data.isPrefixOf msg.data
  | _ => false

/-! ## `pkg/util/testUtil.go`: `indent` and `until` -/

/-- The pieces of a text between the occurrences of the separator character. -/
def splitChars (sep : Char) : List Char → List (List Char)
  | [] => [[]]
  | c :: cs =>
    if c = sep then [] :: splitChars sep cs
    else
      match splitChars sep cs with
      | [] => [[c]]
      | piece :: pieces => (c :: piece) :: pieces

/-- Go's `strings.Split(s, sep)` for a separator of one character. -/
def Split (s : String) (sep : Char) : List String :=
  (splitChars sep s.data).map String.mk

/-- Go's `strings.Join(elems, sep)`. -/
def Join : List String → String → String
  | [], _ => ""
  | [a], _ => a
  | a :: b :: rest, sep => a ++ sep ++ Join (b :: rest) sep

/-- The assignment `res[i] = fmt.Sprintf(fmt.Sprintf("%% %ds%%s", spaces), "", line)` of `indent`:
the inner call builds the format, the outer call applies it to the empty string and the line. -/
def indentLine (spaces : Int) (line : String) : Except Stop String :=
  match Sprintf "%% %ds%%s" [.int spaces] with
  | .error e => .error e
  | .ok format => Sprintf format [.str "", .str line]

/-- The loop `for i, line := range res` of `indent`, from index `i` on: every line with
`i > 0` is replaced. -/
def indentFrom (spaces : Int) : Nat → List String → Except Stop (List String)
  | _, [] => pure []
  | i, line :: rest =>
    match (if 0 < i then indentLine spaces line else pure line) with
    | .error e => .error e
    | .ok line' => (indentFrom spaces (i + 1) rest).map (fun rest' => line' :: rest')

/-- `indent(spaces int, source string) string`. -/
def indent (spaces : Int) (source : String) : Except Stop String :=
  (indentFrom spaces 0 (Split source '\n')).map (fun res => Join res "\n")

/-- The loop `for i := 0; i < n; i++ { nums[i] = i }` of `until`, with `k` iterations left to
run from index `i`. -/
def untilFill : Nat → Nat → List Int → List Int
  | 0, _, nums => nums
  | k + 1, i, nums => untilFill k (i + 1) (nums.set i (i : Int))

/-- The constant `maxAlloc` of the Go runtime on a 64-bit Linux (`1 << 48` bytes): the
largest size `make` accepts. -/
def maxAlloc64 : Nat := 2 ^ 48

/-- `until(n int) []int`. `make([]int, n)` goes through `makeslice` of the Go runtime, which
panics with `makeslice: len out of range` when `n` is negative, when the size `8 * n` in bytes
(an `int` takes 8 bytes) overflows the 64-bit `uintptr`, or when that size exceeds the constant
`maxAlloc` of the runtime, taken as a parameter. Otherwise the slice of `n` zeroes is filled by
the loop. Whether that much memory is free is not modelled: an allocation within the limit is
taken to succeed. -/
def until_ (maxAlloc : Nat) (n : Int) : Except Stop (List Int) :=
  if n < 0 ∨ 2 ^ 64 ≤ 8 * n.toNat ∨ maxAlloc < 8 * n.toNat then
    throw (Stop.panic "runtime error: makeslice: len out of range")
  else pure (untilFill n.toNat 0 (List.replicate n.toNat 0))

/-! ## The host: running shell commands and sleeping

Commands act on an external world of some type `σ`. Every command run and every sleep is also
written to a trace, so that theorems can count them.
-/

/-- One invocation of `sh -c command`: the command line, the environment (`none` for a nil
`Env`, which inherits the environment of the caller) and the standard input, if any. -/
structure Proc where
  command : String
  env : Option (List String)
  stdin : Option String
deriving DecidableEq, Repr

/-- The external world as the programs see it. -/
structure Host (σ : Type) where
  /-- `exec.Command("sh", "-c", command)` with its `Env` and `Stdin`, then `CombinedOutput()`:
  the combined output, the error (if any) and the world afterwards. -/
  combinedOutput : Proc → σ → (String × Option String) × σ
  /-- What happens to the world while the program sleeps for so many seconds. -/
  elapse : Nat → σ → σ

/-- What a program did, in order. -/
inductive Event where
  /-- A shell command was run, with the output and error it gave. -/
  | exec (p : Proc) (output : String) (err : Option String)
  /-- `time.Sleep` of so many seconds. -/
  | sleep (seconds : Nat)
  /-- `util.KubeApplyContents(namespace, contents)` was called. -/
  | apply (ns contents : String)
deriving DecidableEq, Repr

/-- The state threaded through a run: the world, the trace of what was done, and the errors
recorded on the test (`t.Error`, `t.Errorf`). -/
structure Sys (σ : Type) where
  world : σ
  trace : List Event
  failures : List String

/-- A computation that acts on the state and either returns a value or stops. The state is kept
when it stops. -/
def Run (σ : Type) (α : Type) : Type := Sys σ → Except Stop α × Sys σ

instance (σ : Type) : Monad (Run σ) where
  pure a := fun s => (.ok a, s)
  bind m f := fun s =>
    match m s with
    | (.ok a, s') => f a s'
    | (.error e, s') => (.error e, s')

/-- A pure computation that may stop, as a step of a run. -/
def liftExcept {σ α : Type} (r : Except Stop α) : Run σ α := fun s => (r, s)

/-- Run one shell command on the host and write it to the trace. -/
def runProc {σ : Type} (h : Host σ) (p : Proc) : Run σ (String × Option String) := fun s =>
  let r := h.combinedOutput p s.world
  (.ok r.1, { s with world := r.2, trace := s.trace ++ [Event.exec p r.1.1 r.1.2] })

/-- `time.Sleep(time.Duration(seconds) * time.Second)`. -/
def Sleep {σ : Type} (h : Host σ) (seconds : Nat) : Run σ Unit := fun s =>
  (.ok (), { s with world := h.elapse seconds s.world, trace := s.trace ++ [Event.sleep seconds] })

/-- Modelled from the spec: `util.Shell(format, args...)` is not among the sources (section 4.1,
Command Executor); its callers pass a format and the operands of the format. It formats the
command like `Sprintf`, runs it once through the shell and returns the combined output with the
error, as a value and never as a panic. -/
def Shell {σ : Type} (h : Host σ) (format : String) (args : List Arg) :
    Run σ (String × Option String) := do
  let command ← liftExcept (Sprintf format args)
  runProc h { command := command, env := none, stdin := none }

/-! ## `maistra/utils_ocp.go` -/

/-- `ocCommand(subCommand, namespace, yamlFileName, kubeconfig)`; the parameter `namespace` is
written `ns`. -/
def ocCommand (subCommand ns yamlFileName kubeconfig : String) : Except Stop String :=
  if ns = "" then
    Sprintf "oc %s -f %s --kubeconfig=%s" [.str subCommand, .str yamlFileName, .str kubeconfig]
  else
    Sprintf "oc %s -n %s -f %s --kubeconfig=%s"
      [.str subCommand, .str ns, .str yamlFileName, .str kubeconfig]

/-- `OcApply(namespace, yamlFileName, kubeconfig)`: the command built by `ocCommand` is handed
to `util.Shell` as its format, with no operands. -/
def OcApply {σ : Type} (h : Host σ) (ns yamlFileName kubeconfig : String) :
    Run σ (Option String) := do
  let cmd ← liftExcept (ocCommand "apply" ns yamlFileName kubeconfig)
  let (_, err) ← Shell h cmd []
  pure err

/-- `OcDelete(namespace, yamlFileName, kubeconfig)`. -/
def OcDelete {σ : Type} (h : Host σ) (ns yamlFileName kubeconfig : String) :
    Run σ (Option String) := do
  let cmd ← liftExcept (ocCommand "delete" ns yamlFileName kubeconfig)
  let (_, err) ← Shell h cmd []
  pure err

/-- The format of the route query of `GetOCPIngressgateway`. -/
def routesFormat : String :=
  "kubectl get routes -l %s -n %s -o jsonpath='\x7b.items[0].spec.host\x7d' --kubeconfig=%s"

/-- The loop `for i := 0; i < testRetryTimes; i++` of `GetOCPIngressgateway`, with `k`
iterations left: stop at once when the last query gave no error, otherwise sleep five seconds
and query again. `query` is the call of `util.Shell` the loop body repeats. -/
def retryRoutes {σ : Type} (h : Host σ) (query : Run σ (String × Option String)) :
    Nat → String × Option String → Run σ (String × Option String)
  | 0, r => pure r
  | k + 1, r =>
    if r.2 = none then pure r
    else do
      Sleep h 5
      let r' ← query
      retryRoutes h query k r'

/-- `GetOCPIngressgateway(podLabel, namespace, kubeconfig)`; `testRetryTimes` is a constant of
the package that is not among the sources and is taken as a parameter. -/
def GetOCPIngressgateway {σ : Type} (h : Host σ) (testRetryTimes : Int)
    (podLabel ns kubeconfig : String) : Run σ (String × Option String) := do
  let query := Shell h routesFormat [Arg.str podLabel, Arg.str ns, Arg.str kubeconfig]
  let first ← query
  let (ingress, err) ← retryRoutes h query testRetryTimes.toNat first
  if err ≠ none then pure ("", err) else pure (ingress, none)

/-! ## `pkg/util/shell/shell_helper.go` -/

/-- Go's `strings.HasSuffix`. -/
def HasSuffix (s suffix : String) : Bool := suffix.data.isSuffixOf s.data

/-- `appendNewLine(str)`. -/
def appendNewLine (str : String) : String :=
  if str = "" then ""
  else if HasSuffix str "\n" then str
  else str ++ "\n"

/-- `execShellCommand(command, env, input)`: standard input is set only for a non-empty
input. -/
def execShellCommand {σ : Type} (h : Host σ) (command : String) (env : Option (List String))
    (input : String) : Run σ (String × Option String) :=
  runProc h { command := command, env := env, stdin := if input = "" then none else some input }

/-- Modelled from the spec: the test helper `t` (`pkg/util/test`) is not among the sources.
`t.Fatalf(format, args...)` formats its message like `Sprintf`, reports it as the failure of the
test and stops the test at once. -/
def Fatalf {σ α : Type} (format : String) (args : List Arg) : Run σ α := do
  let msg ← liftExcept (Sprintf format args)
  liftExcept (.error (Stop.fatal msg))

/-- The loop `for _, check := range checks { check(t, output) }`. -/
def runChecks {σ : Type} (output : String) : List (String → Run σ Unit) → Run σ Unit
  | [] => pure ()
  | check :: checks => do
    check output
    runChecks output checks

/-- `ExecuteWithEnvAndInput(t, env, cmd, input, checks...)`. -/
def ExecuteWithEnvAndInput {σ : Type} (h : Host σ) (env : Option (List String))
    (cmd input : String) (checks : List (String → Run σ Unit)) : Run σ String := do
  let (output, err) ← execShellCommand h cmd env input
  match err with
  | some e =>
    Fatalf "Command failed: %s\n%serror: %s" [.str cmd, .str (appendNewLine output), .str e]
  | none =>
    runChecks output checks
    pure output

/-- `ExecuteWithEnv(t, env, cmd, checks...)`. -/
def ExecuteWithEnv {σ : Type} (h : Host σ) (env : Option (List String)) (cmd : String)
    (checks : List (String → Run σ Unit)) : Run σ String :=
  ExecuteWithEnvAndInput h env cmd "" checks

/-- `ExecuteWithInput(t, cmd, input, checks...)`. -/
def ExecuteWithInput {σ : Type} (h : Host σ) (cmd input : String)
    (checks : List (String → Run σ Unit)) : Run σ String :=
  ExecuteWithEnvAndInput h none cmd input checks

/-- `Execute(t, cmd, checks...)`. -/
def Execute {σ : Type} (h : Host σ) (cmd : String) (checks : List (String → Run σ Unit)) :
    Run σ String :=
  ExecuteWithEnv h none cmd checks

/-- `Executef(t, format, args...)`. -/
def Executef {σ : Type} (h : Host σ) (format : String) (args : List Arg) : Run σ String := do
  let cmd ← liftExcept (Sprintf format args)
  Execute h cmd []

/-! ## `pkg/util/testUtil.go`: `RunTemplate` and `RecoverPanic` -/

/-- Go's `text/template`, as far as `RunTemplate` uses it: parsing a template text (with the
function map installed) and executing the parsed template on an input; each may fail with an
error message. -/
structure Engine (ι : Type) where
  Template : Type
  parse : String → Except String Template
  execute : Template → ι → Except String String

/-- `RunTemplate(tmpl, input)`: an error of parsing or of execution goes to `log.Log.Fatal`,
which ends the run. -/
def RunTemplate {ι : Type} (engine : Engine ι) (tmpl : String) (input : ι) :
    Except Stop String :=
  match engine.parse tmpl with
  | .error err => .error (Stop.fatal err)
  | .ok tt =>
    match engine.execute tt input with
    | .error err => .error (Stop.fatal err)
    | .ok text => .ok text

/-- Modelled from the spec: `t.Error(msg)` of the test helper records the message as a failure
of the test and lets the test go on. -/
def Error {σ : Type} (msg : String) : Run σ Unit := fun s =>
  (.ok (), { s with failures := s.failures ++ [msg] })

/-- Modelled from the spec: `t.Errorf(format, args...)` records the formatted message as a
failure of the test and lets the test go on. -/
def Errorf {σ : Type} (format : String) (args : List Arg) : Run σ Unit := do
  let msg ← liftExcept (Sprintf format args)
  Error msg

/-- `defer util.RecoverPanic(t)` around the body of a step: a panic of the body is recovered
and recorded with `t.Errorf("Test panic: %v", err)`. -/
def RecoverPanic {σ : Type} (body : Run σ Unit) : Run σ Unit := fun s =>
  match body s with
  | (.error (Stop.panic err), s') => Errorf "Test panic: %v" [.str err] s'
  | r => r

/-! ## `pkg/ossm/smcp_install.go`

The steps of `TestSMCPInstall`. The calls of `log.Log.Info` and `log.Log.Error` only write to the
log and are left out.
-/

/-- Go's `strings.Contains` on the characters of the two strings. -/
def containsChars : List Char → List Char → Bool
  | [], sub => sub.isEmpty
  | c :: cs, sub => sub.isPrefixOf (c :: cs) || containsChars cs sub

/-- Go's `strings.Contains(s, substr)`. -/
def Contains (s substr : String) : Bool := containsChars s.data substr.data

/-- The struct `SMCP`, the input of the templates. -/
structure SMCP where
  Name : String
  Namespace : String
deriving DecidableEq, Repr

/-- The package-level values the steps read and that are not among the sources: the names
(`smcpName`, `meshNamespace`), the member-roll manifest `smmr` and the three templates. -/
structure Config where
  smcpName : String
  meshNamespace : String
  smmr : String
  smcpV21_template : String
  smcpV22_template : String
  smcpV23_template : String

/-- The value `smcp = SMCP{smcpName, meshNamespace}`. -/
def Config.smcp (c : Config) : SMCP := { Name := c.smcpName, Namespace := c.meshNamespace }

/-- What the steps call and is not among the sources: the host behind `util.Shell`,
`env.Getenv`, the template engine behind `util.RunTemplate`, and what
`util.KubeApplyContents(namespace, contents)` does to the world and returns as its error. -/
structure Util (σ : Type) where
  host : Host σ
  getenv : String → String → String
  engine : Engine SMCP
  kubeApply : String → String → σ → Option String × σ

/-- Modelled from the spec: `util.ShellMuteOutputError(format, args...)` is not among the
sources; it runs the command like `util.Shell` and differs in what it logs. -/
def ShellMuteOutputError {σ : Type} (h : Host σ) (format : String) (args : List Arg) :
    Run σ (String × Option String) :=
  Shell h format args

/-- Modelled from the spec: `util.KubeApplyContents(namespace, contents)` is not among the
sources (section 4.4, Resource Applier); it acts on the world and returns its error as a
value. -/
def KubeApplyContents {σ : Type} (u : Util σ) (ns contents : String) : Run σ (Option String) :=
  fun s =>
    (.ok (u.kubeApply ns contents s.world).1,
     { s with world := (u.kubeApply ns contents s.world).2
              trace := s.trace ++ [Event.apply ns contents] })

/-- The format of the identity patch applied on a ROSA cluster. -/
def patchFormat : String :=
  "oc patch -n %s smcp/%s --type merge -p '\x7b\"spec\":\x7b\"security\":\x7b\"identity\":\x7b\"type\":\"ThirdParty\"\x7d\x7d\x7d\x7d'"

/-- The patch block of a step: `if env.Getenv("ROSA", "false") == "true" { util.Shell(...) }`. -/
def patchIdentity {σ : Type} (u : Util σ) (c : Config) : Run σ Unit :=
  if u.getenv "ROSA" "false" = "true" then do
    let _ ← Shell u.host patchFormat [.str c.meshNamespace, .str c.smcpName]
    pure ()
  else pure ()

/-- The block "Create SMCP" of a step: new project, apply the rendered template and the member
roll, patch the identity on ROSA. No result of these calls is looked at. -/
def createSMCP {σ : Type} (u : Util σ) (c : Config) (template : String) : Run σ Unit := do
  let _ ← ShellMuteOutputError u.host "oc new-project %s" [.str c.meshNamespace]
  let manifest ← liftExcept (RunTemplate u.engine template c.smcp)
  let _ ← KubeApplyContents u c.meshNamespace manifest
  let _ ← KubeApplyContents u c.meshNamespace c.smmr
  patchIdentity u c

/-- The block "Waiting for mesh installation to complete" of a step: the statement
`util.Shell("oc wait --for condition=Ready -n %s smcp/%s --timeout ...", meshNamespace,
smcpName)`, whose two results are dropped. `format` is the literal of the call. -/
def waitForReady {σ : Type} (u : Util σ) (c : Config) (format : String) : Run σ Unit := do
  let _ ← Shell u.host format [.str c.meshNamespace, .str c.smcpName]
  pure ()

/-- The block "Verify SMCP status and pods" at the end of a step: the status text is checked
for the marker, the error of the query is dropped. -/
def verifyStatusAndPods {σ : Type} (u : Util σ) (c : Config) : Run σ Unit := do
  let (msg, _) ← Shell u.host "oc get -n %s smcp/%s -o wide" [.str c.meshNamespace, .str c.smcpName]
  if !Contains msg "ComponentsReady" then
    Error "SMCP not Ready"
  let _ ← Shell u.host "oc get -n %s pods" [.str c.meshNamespace]
  pure ()

/-- The block "Verify SMCP status and pods" in the middle of an upgrade step: both commands are
run and nothing is checked. -/
def showStatusAndPods {σ : Type} (u : Util σ) (c : Config) : Run σ Unit := do
  let _ ← Shell u.host "oc get -n %s smcp/%s -o wide" [.str c.meshNamespace, .str c.smcpName]
  let _ ← Shell u.host "oc get -n %s pods" [.str c.meshNamespace]
  pure ()

/-- The block "Upgrade SMCP" of an upgrade step: apply the rendered template of the new
version, patch the identity on ROSA. -/
def upgradeSMCP {σ : Type} (u : Util σ) (c : Config) (template : String) : Run σ Unit := do
  let manifest ← liftExcept (RunTemplate u.engine template c.smcp)
  let _ ← KubeApplyContents u c.meshNamespace manifest
  patchIdentity u c

/-- The body of an install step (`smcp_test_install_2.3`, `_2.2`, `_2.1`), which differ in the
template only. -/
def installStep {σ : Type} (u : Util σ) (c : Config) (template : String) : Run σ Unit :=
  RecoverPanic (do
    createSMCP u c template
    waitForReady u c "oc wait --for condition=Ready -n %s smcp/%s --timeout 300s"
    verifyStatusAndPods u c)

/-- The body of an upgrade step (`smcp_test_upgrade_2.1_to_2.2`, `_2.2_to_2.3`), which differ
in the two templates only. -/
def upgradeStep {σ : Type} (u : Util σ) (c : Config) (fromTemplate toTemplate : String) :
    Run σ Unit :=
  RecoverPanic (do
    createSMCP u c fromTemplate
    waitForReady u c "oc wait --for condition=Ready -n %s smcp/%s --timeout 300s"
    showStatusAndPods u c
    upgradeSMCP u c toTemplate
    Sleep u.host 10
    waitForReady u c "oc wait --for condition=Ready -n %s smcp/%s --timeout 360s"
    verifyStatusAndPods u c)

/-- The step `smcp_test_install_2.3` of `TestSMCPInstall`. -/
def smcp_test_install_2_3 {σ : Type} (u : Util σ) (c : Config) : Run σ Unit :=
  installStep u c c.smcpV23_template

/-- The step `smcp_test_install_2.2` of `TestSMCPInstall`. -/
def smcp_test_install_2_2 {σ : Type} (u : Util σ) (c : Config) : Run σ Unit :=
  installStep u c c.smcpV22_template

/-- The step `smcp_test_install_2.1` of `TestSMCPInstall`. -/
def smcp_test_install_2_1 {σ : Type} (u : Util σ) (c : Config) : Run σ Unit :=
  installStep u c c.smcpV21_template

/-- The step `smcp_test_upgrade_2.1_to_2.2` of `TestSMCPInstall`. -/
def smcp_test_upgrade_2_1_to_2_2 {σ : Type} (u : Util σ) (c : Config) : Run σ Unit :=
  upgradeStep u c c.smcpV21_template c.smcpV22_template

/-- The step `smcp_test_upgrade_2.2_to_2.3` of `TestSMCPInstall`. -/
def smcp_test_upgrade_2_2_to_2_3 {σ : Type} (u : Util σ) (c : Config) : Run σ Unit :=
  upgradeStep u c c.smcpV22_template c.smcpV23_template

/-- The status query `oc get -n <meshNamespace> smcp/<smcpName> -o wide` as a shell
invocation. -/
def statusProc (c : Config) : Proc :=
  { command := "oc get -n " ++ c.meshNamespace ++ " smcp/" ++ c.smcpName ++ " -o wide",
    env := none, stdin := none }

/-- The readiness wait `oc wait --for condition=Ready -n <meshNamespace> smcp/<smcpName>
--timeout <timeout>` as a shell invocation. -/
def waitProc (c : Config) (timeout : String) : Proc :=
  { command := "oc wait --for condition=Ready -n " ++ c.meshNamespace ++ " smcp/" ++
      c.smcpName ++ " --timeout " ++ timeout,
    env := none, stdin := none }

/-- The output of the last run of the invocation `p` in a trace (empty when it was not run). -/
def lastOutput (p : Proc) (evs : List Event) : String :=
  evs.foldl (fun acc e =>
    match e with
    | Event.exec q out _ => if q = p then out else acc
    | _ => acc) ""

/-! ## A scripted host, and what is read off a trace -/

/-- A simulated backend: the world is the number of commands run so far, and the answer to a
command is scripted by its text and that number. Sleeping changes nothing. -/
def scriptedHost (answer : String → Nat → String × Option String) : Host Nat where
  combinedOutput := fun p n => (answer p.command n, n + 1)
  elapse := fun _ n => n

/-- The state in which nothing has been done yet. -/
def Sys.init {σ : Type} (w : σ) : Sys σ := { world := w, trace := [], failures := [] }

/-- The shell invocations of a trace, in order. -/
def execsOf : List Event → List Proc
  | [] => []
  | Event.exec p _ _ :: evs => p :: execsOf evs
  | _ :: evs => execsOf evs

/-- The durations, in seconds, of the sleeps of a trace, in order. -/
def sleepsOf : List Event → List Nat
  | [] => []
  | Event.sleep d :: evs => d :: sleepsOf evs
  | _ :: evs => sleepsOf evs

/-- The command line the route query of `GetOCPIngressgateway` is meant to run. -/
def routesCommand (podLabel ns kubeconfig : String) : String :=
  "kubectl get routes -l " ++ podLabel ++ " -n " ++ ns ++
    " -o jsonpath='\x7b.items[0].spec.host\x7d' --kubeconfig=" ++ kubeconfig

/-- The shell invocation of the route query: that command, with the inherited environment and
no standard input. -/
def routesProc (podLabel ns kubeconfig : String) : Proc :=
  { command := routesCommand podLabel ns kubeconfig, env := none, stdin := none }

/-- The outcome of attempt `j + 1` of the command `p`, and the world after it, when every
earlier attempt is followed by a sleep of five seconds. -/
def attempt {σ : Type} (h : Host σ) (p : Proc) : Nat → σ → (String × Option String) × σ
  | 0, w => h.combinedOutput p w
  | j + 1, w => attempt h p j (h.elapse 5 (h.combinedOutput p w).2)

/-- The trace of `j + 1` attempts of the command `p` with a sleep of five seconds between
consecutive attempts. -/
def attemptTrace {σ : Type} (h : Host σ) (p : Proc) : Nat → σ → List Event
  | 0, w => [Event.exec p (h.combinedOutput p w).1.1 (h.combinedOutput p w).1.2]
  | j + 1, w =>
    Event.exec p (h.combinedOutput p w).1.1 (h.combinedOutput p w).1.2 :: Event.sleep 5 ::
      attemptTrace h p j (h.elapse 5 (h.combinedOutput p w).2)

/-- A simulated cluster for the steps: commands are answered by `answer`, every template
renders to its own text, applying a manifest succeeds and changes nothing, and `ROSA` is
unset. -/
def scriptedUtil (answer : String → Nat → String × Option String) : Util Nat where
  host := scriptedHost answer
  getenv := fun _ fallback => fallback
  engine := { Template := String, parse := fun t => .ok t, execute := fun t _ => .ok t }
  kubeApply := fun _ _ n => (none, n)

/-- A configuration with the default names. -/
def sampleConfig : Config where
  smcpName := "basic"
  meshNamespace := "istio-system"
  smmr := "kind: ServiceMeshMemberRoll"
  smcpV21_template := "version: v2.1"
  smcpV22_template := "version: v2.2"
  smcpV23_template := "version: v2.3"

/-- A cluster on which the readiness wait fails and the status text holds the marker. -/
def waitFailsThenReady (command : String) (_ : Nat) : String × Option String :=
  if "oc wait".data.isPrefixOf command.data then
    ("error: timed out waiting for the condition on smcp/basic", some "exit status 1")
  else if command = "oc get -n istio-system smcp/basic -o wide" then
    ("NAME    READY   STATUS            PROFILES      VERSION   AGE\nbasic   9/9     ComponentsReady   [\"default\"]   2.3.0     6m", none)
  else ("", none)

/-- The command line of the identity patch. -/
def patchCommand (ns name : String) : String :=
  "oc patch -n " ++ ns ++ " smcp/" ++ name ++
    " --type merge -p '\x7b\"spec\":\x7b\"security\":\x7b\"identity\":\x7b\"type\":\"ThirdParty\"\x7d\x7d\x7d\x7d'"

/-- The query `oc get -n <meshNamespace> pods` as a shell invocation. -/
def podsProc (c : Config) : Proc :=
  { command := "oc get -n " ++ c.meshNamespace ++ " pods", env := none, stdin := none }

/-- A computation that always returns and records no failure on the test. -/
def Quiet {σ α : Type} (m : Run σ α) : Prop :=
  ∀ s : Sys σ, ∃ a s', m s = (.ok a, s') ∧ s'.failures = s.failures

/-! ## `maistra/utils_ocp.go`: the ingress ports

`GetSecureIngressPort` and `GetTCPIngressPort` trim the output of a query with `strings.Trim`
and test it with the regular expression `^[0-9]{1,5}$`. Go's `regexp` is modelled for the
syntax this expression uses: the anchors `^` and `$` (without the flag `m` they match at the
beginning and at the end of the text only) and a bounded greedy repetition of a character
range. The expression is given as a syntax tree; the parser of `regexp` is not modelled.
-/

/-- Go's `strings.Trim(s, cutset)`: `s` without its leading and trailing characters that occur
in `cutset`. -/
def Trim (s cutset : String) : String :=
  String.mk
    (((s.data.dropWhile (fun c => cutset.data.contains c)).reverse.dropWhile
      (fun c => cutset.data.contains c)).reverse)

/-- The items of a regular expression. -/
inductive Re where
  /-- `^`: the beginning of the text. -/
  | beginText
  /-- `$`: the end of the text. -/
  | endText
  /-- `[lo-hi]{min,max}`: between `min` and `max` characters of the range, as many as
  possible. -/
  | repeatRange (lo hi : Char) (min max : Nat)

/-- Match a greedy repetition at position `pos` of the text, of which `input` is left: one more
character of the range is tried first, then the continuation `k` for the rest of the
expression. The result is the text matched. -/
def matchRepeat (lo hi : Char) (k : Nat → List Char → Option (List Char)) :
    Nat → Nat → Nat → List Char → Option (List Char)
  | 0, min, pos, input => if min = 0 then k pos input else none
  | max + 1, min, pos, input =>
    let more :=
      match input with
      | c :: cs =>
        if lo ≤ c ∧ c ≤ hi then
          (matchRepeat lo hi k max (min - 1) (pos + 1) cs).map (fun m => c :: m)
        else none
      | [] => none
    match more with
    | some m => some m
    | none => if min = 0 then k pos input else none

/-- Match the items of an expression, in order, at position `pos` of the text, of which
`input` is left. The result is the text matched. -/
def matchSeq : List Re → Nat → List Char → Option (List Char)
  | [], _, _ => some []
  | Re.beginText :: rest, pos, input => if pos = 0 then matchSeq rest pos input else none
  | Re.endText :: rest, pos, input => if input = [] then matchSeq rest pos input else none
  | Re.repeatRange lo hi min max :: rest, pos, input =>
    matchRepeat lo hi (fun pos' input' => matchSeq rest pos' input') max min pos input

/-- The leftmost match of the expression at or after position `pos`. -/
def findFrom (re : List Re) : Nat → List Char → Option (List Char)
  | pos, [] => matchSeq re pos []
  | pos, c :: cs =>
    match matchSeq re pos (c :: cs) with
    | some m => some m
    | none => findFrom re (pos + 1) cs

/-- Go's `(*Regexp).FindString(s)`: the text of the leftmost match, or the empty string when
there is none. -/
def FindString (re : List Re) (s : String) : String :=
  match findFrom re 0 s.data with
  | some m => String.mk m
  | none => ""

/-- The expression `regexp.MustCompile("^[0-9]{1,5}$")` of the two port functions. -/
def portRegexp : List Re := [Re.beginText, Re.repeatRange '0' '9' 1 5, Re.endText]

/-- The format of the query of `GetSecureIngressPort`. -/
def securePortFormat : String :=
  "kubectl -n %s get service %s -o jsonpath='\x7b.spec.ports[?(@.name==\"https\")].port\x7d' --kubeconfig=%s"

/-- The format of the query of `GetTCPIngressPort`. -/
def tcpPortFormat : String :=
  "kubectl -n %s get service %s -o jsonpath='\x7b.spec.ports[?(@.name==\"tcp\")].port\x7d' --kubeconfig=%s"

/-- `GetSecureIngressPort(namespace, serviceName, kubeconfig)`. The error made by `fmt.Errorf`
is its message; `log.Warna` only writes to the log. -/
def GetSecureIngressPort {σ : Type} (h : Host σ) (ns serviceName kubeconfig : String) :
    Run σ (String × Option String) := do
  let (port, err) ← Shell h securePortFormat [.str ns, .str serviceName, .str kubeconfig]
  if err ≠ none then pure ("", err)
  else
    if FindString portRegexp (Trim port "'") = "" then do
      let msg ← liftExcept (Sprintf "unable to find the port of %s" [.str serviceName])
      pure ("", some msg)
    else pure (Trim port "'", none)

/-- `GetTCPIngressPort(namespace, serviceName, kubeconfig)`. -/
def GetTCPIngressPort {σ : Type} (h : Host σ) (ns serviceName kubeconfig : String) :
    Run σ (String × Option String) := do
  let (port, err) ← Shell h tcpPortFormat [.str ns, .str serviceName, .str kubeconfig]
  if err ≠ none then pure ("", err)
  else
    if FindString portRegexp (Trim port "'") = "" then do
      let msg ← liftExcept (Sprintf "unable to find the port of %s" [.str serviceName])
      pure ("", some msg)
    else pure (Trim port "'", none)

/-- The command line the port query is meant to run, for the port named `portName`. -/
def portCommand (portName ns serviceName kubeconfig : String) : String :=
  "kubectl -n " ++ ns ++ " get service " ++ serviceName ++
    " -o jsonpath='\x7b.spec.ports[?(@.name==\"" ++ portName ++ "\")].port\x7d' --kubeconfig=" ++
    kubeconfig

/-- The shell invocation of the port query. -/
def portProc (portName ns serviceName kubeconfig : String) : Proc :=
  { command := portCommand portName ns serviceName kubeconfig, env := none, stdin := none }

/-- A text of 1 to 5 ASCII decimal digits and nothing else. -/
def IsPortText (digits : String) : Prop :=
  1 ≤ digits.data.length ∧ digits.data.length ≤ 5 ∧ ∀ c ∈ digits.data, '0' ≤ c ∧ c ≤ '9'

instance (digits : String) : Decidable (IsPortText digits) := by
  unfold IsPortText
  infer_instance

/-- The text `out` is `digits` between some single quotes on the left and some on the
right. -/
def IsQuoted (out digits : String) : Prop :=
  ∃ a b : Nat,
    out.data = List.replicate a '\x27' ++ digits.data ++ List.replicate b '\x27'

/-- What C12 says of a port function `get` that queries the port named `portName`, started in
the state `s`: the query is run once; an error of the query is returned with the empty string;
an output that is 1 to 5 digits between single quotes gives exactly the digits and no error;
every other output gives the empty string and the error `unable to find the port of
<serviceName>`. -/
@[reducible] def PortSpec {σ : Type} (h : Host σ) (get : Run σ (String × Option String))
    (portName ns serviceName kubeconfig : String) (s : Sys σ) : Prop :=
  (∀ e, (h.combinedOutput (portProc portName ns serviceName kubeconfig) s.world).1.2 = some e →
    get s = (.ok ("", some e),
      { world := (h.combinedOutput (portProc portName ns serviceName kubeconfig) s.world).2
        trace := s.trace ++ [Event.exec (portProc portName ns serviceName kubeconfig)
          (h.combinedOutput (portProc portName ns serviceName kubeconfig) s.world).1.1
          (h.combinedOutput (portProc portName ns serviceName kubeconfig) s.world).1.2]
        failures := s.failures }))
  ∧ ((h.combinedOutput (portProc portName ns serviceName kubeconfig) s.world).1.2 = none →
      ∀ digits,
        IsQuoted (h.combinedOutput (portProc portName ns serviceName kubeconfig) s.world).1.1
          digits →
        IsPortText digits →
        get s = (.ok (digits, none),
          { world := (h.combinedOutput (portProc portName ns serviceName kubeconfig) s.world).2
            trace := s.trace ++ [Event.exec (portProc portName ns serviceName kubeconfig)
              (h.combinedOutput (portProc portName ns serviceName kubeconfig) s.world).1.1
              (h.combinedOutput (portProc portName ns serviceName kubeconfig) s.world).1.2]
            failures := s.failures }))
  ∧ ((h.combinedOutput (portProc portName ns serviceName kubeconfig) s.world).1.2 = none →
      (¬ ∃ digits,
        IsQuoted (h.combinedOutput (portProc portName ns serviceName kubeconfig) s.world).1.1
          digits ∧ IsPortText digits) →
      get s = (.ok ("", some ("unable to find the port of " ++ serviceName)),
        { world := (h.combinedOutput (portProc portName ns serviceName kubeconfig) s.world).2
          trace := s.trace ++ [Event.exec (portProc portName ns serviceName kubeconfig)
            (h.combinedOutput (portProc portName ns serviceName kubeconfig) s.world).1.1
            (h.combinedOutput (portProc portName ns serviceName kubeconfig) s.world).1.2]
          failures := s.failures }))

/-! ## `pkg/util/testUtil.go`: rendering in an ambient state

Besides its arguments a Go function can read the state of its process: the environment
variables and everything else (the clock, files, the order in which a map is walked). To say
what a rendering depends on, that state is made explicit here: the libraries `text/template` and
`yaml.Marshal`, which are no part of the repository, are parameters that receive the ambient
state, and the functions of the repository pass it on to them.
-/

/-- The state of the process outside the arguments of a call: the environment variables and
the rest. -/
structure Ambient (Ω : Type) where
  environ : String → Option String
  rest : Ω

/-- `toYaml(value)`, called in the ambient state `a`. The library call `yaml.Marshal` is the
parameter `marshal`; `render` gives the text `%v` prints for the value, which the panic message
holds. -/
def toYaml {Ω V : Type} (marshal : Ambient Ω → V → Except String String) (render : V → String)
    (a : Ambient Ω) (value : V) : Except Stop String :=
  match marshal a value with
  | .ok y => .ok y
  | .error _ =>
    match Sprintf "Unable to marshal %v" [.str (render value)] with
    | .ok msg => .error (Stop.panic msg)
    | .error e => .error e

/-- The four functions of `templateFuncMap`, by their names in the templates. -/
structure FuncMap (V : Type) where
  toYaml : V → Except Stop String
  indent : Int → String → Except Stop String
  until_ : Int → Except Stop (List Int)
  perArch : List String → Except Stop String

/-- The value `templateFuncMap`, as its functions behave in the ambient state `a`: `perArch`
reads the environment through `env.Getenv`, `toYaml` calls `yaml.Marshal`. -/
def templateFuncMap {Ω V : Type} (marshal : Ambient Ω → V → Except String String)
    (render : V → String) (maxAlloc : Nat) (a : Ambient Ω) : FuncMap V :=
  { toYaml := toYaml marshal render a
    indent := indent
    until_ := until_ maxAlloc
    perArch := perArch (Getenv a.environ) }

/-- Go's `text/template`: parsing a template text and executing a parsed template on an input
with a function map installed. Both receive the ambient state. -/
structure TextTemplate (Ω V ι : Type) where
  Template : Type
  parse : Ambient Ω → String → Except String Template
  execute : Ambient Ω → FuncMap V → Template → ι → Except String String

/-- `RunTemplate(tmpl, input)`, called in the ambient state `a`:
`template.New("").Funcs(templateFuncMap).Parse(tmpl)`, then `Execute`; an error of either goes
to `log.Log.Fatal`. This is `RunTemplate` above with the engine that the library and the
function map are in `a`. -/
def RunTemplateIn {Ω V ι : Type} (lib : TextTemplate Ω V ι)
    (marshal : Ambient Ω → V → Except String String) (render : V → String) (maxAlloc : Nat)
    (a : Ambient Ω) (tmpl : String) (input : ι) : Except Stop String :=
  match lib.parse a tmpl with
  | .error err => .error (Stop.fatal err)
  | .ok tt =>
    match lib.execute a (templateFuncMap marshal render maxAlloc a) tt input with
    | .error err => .error (Stop.fatal err)
    | .ok text => .ok text

/-- The engine that the library with `templateFuncMap` installed is in the ambient state
`a`. -/
def TextTemplate.engineIn {Ω V ι : Type} (lib : TextTemplate Ω V ι)
    (marshal : Ambient Ω → V → Except String String) (render : V → String) (maxAlloc : Nat)
    (a : Ambient Ω) : Engine ι :=
  { Template := lib.Template
    parse := lib.parse a
    execute := lib.execute a (templateFuncMap marshal render maxAlloc a) }

/-- A stand-in for the template library in examples: a template text is its own parsed form,
and executing it prints the image that `perArch` selects among the template text and the
input. It does not read the ambient state. -/
def selectingTemplates (Ω V : Type) : TextTemplate Ω V String where
  Template := String
  parse := fun _ tmpl => .ok tmpl
  execute := fun _ funcs tt input =>
    match funcs.perArch [tt, input] with
    | .ok image => .ok image
    | .error _ => .error "error calling perArch"

/-- An environment in which only `SAMPLEARCH` is set, to the given value. -/
def onlySampleArch (value : String) (key : String) : Option String :=
  if key = "SAMPLEARCH" then some value else none

/-! ## Lemmas on `Sprintf` -/

theorem Sprintf_unknownArchitecture (arch : String) :
    Sprintf "unknown architecture: %s" [.str arch] = .ok ("unknown architecture: " ++ arch) := by
  simp [Sprintf, doPrintf, verbStep, printArg, padString, extra, Except.map, pure, Except.pure]
  rw [String.ext_iff]
  simp [String.data_append]

theorem Sprintf_noImage (arch : String) (index : Nat) :
    Sprintf
      "no image specified for %s in perArch function call (should be specified as parameter #%d)"
      [.str arch, .int index] =
    .ok ("no image specified for " ++ arch ++
      " in perArch function call (should be specified as parameter #" ++
      String.mk (utoa index) ++ ")") := by
  simp [Sprintf, doPrintf, verbStep, printArg, padString, extra, Except.map, pure, Except.pure,
    itoa]
  rw [String.ext_iff]
  simp [String.data_append]

theorem lookup_parameterIndices (arch : String) :
    parameterIndices.lookup arch =
      if arch = "x86" then some 0 else if arch = "p" then some 1
      else if arch = "z" then some 2 else if arch = "arm" then some 3 else none := by
  by_cases h1 : arch = "x86"
  · subst h1; rfl
  by_cases h2 : arch = "p"
  · subst h2; rfl
  by_cases h3 : arch = "z"
  · subst h3; rfl
  by_cases h4 : arch = "arm"
  · subst h4; rfl
  have e1 : (arch == "x86") = false := by simpa using h1
  have e2 : (arch == "p") = false := by simpa using h2
  have e3 : (arch == "z") = false := by simpa using h3
  have e4 : (arch == "arm") = false := by simpa using h4
  simp [parameterIndices, List.lookup, e1, e2, e3, e4, h1, h2, h3, h4]

/-! ## `perArch` -/

theorem perArch_of_unknown (getenv : String → String → String) (images : List String)
    (h : getenv "SAMPLEARCH" "x86" ∉ ["x86", "p", "z", "arm"]) :
    perArch getenv images =
      .error (.panic ("unknown architecture: " ++ getenv "SAMPLEARCH" "x86")) := by
  simp only [List.mem_cons, List.mem_singleton, List.not_mem_nil, or_false, not_or] at h
  obtain ⟨h1, h2, h3, h4⟩ := h
  simp [perArch, lookup_parameterIndices, h1, h2, h3, h4, Sprintf_unknownArchitecture, throw,
    throwThe, MonadExceptOf.throw]

theorem perArch_of_known (getenv : String → String → String) (images : List String)
    (i : Nat) (h : (getenv "SAMPLEARCH" "x86", i) ∈ [("x86", 0), ("p", 1), ("z", 2), ("arm", 3)]) :
    perArch getenv images =
      if hi : i < images.length then .ok (images.get ⟨i, hi⟩)
      else .error (.panic ("no image specified for " ++ getenv "SAMPLEARCH" "x86" ++
        " in perArch function call (should be specified as parameter #" ++
        String.mk (utoa i) ++ ")")) := by
  simp only [List.mem_cons, List.mem_singleton, List.not_mem_nil, or_false, Prod.mk.injEq] at h
  have hl : parameterIndices.lookup (getenv "SAMPLEARCH" "x86") = some i := by
    rcases h with ⟨ha, hi⟩ | ⟨ha, hi⟩ | ⟨ha, hi⟩ | ⟨ha, hi⟩ <;> subst hi <;>
      simp [lookup_parameterIndices, ha]
  unfold perArch
  simp only [hl]
  split_ifs with hi
  · rfl
  · rw [Sprintf_noImage]
    rfl

theorem unknownArchitecture_noImage (arch tail : String) :
    UnknownArchitecture (.error (.panic ("no image specified for " ++ arch ++ tail))) = false := by
  simp [UnknownArchitecture, String.data_append, List.isPrefixOf]

theorem missingArchImage_noImage (arch tail : String) :
    MissingArchImage (.error (.panic ("no image specified for " ++ arch ++ tail))) = true := by
  simp [MissingArchImage, String.data_append]

theorem known_of_mem {arch : String} (h : arch ∈ ["x86", "p", "z", "arm"]) :
    ∃ i, (arch, i) ∈ [("x86", 0), ("p", 1), ("z", 2), ("arm", 3)] := by
  simp only [List.mem_cons, List.mem_singleton, List.not_mem_nil, or_false] at h
  rcases h with h | h | h | h <;> subst h
  · exact ⟨0, by simp⟩
  · exact ⟨1, by simp⟩
  · exact ⟨2, by simp⟩
  · exact ⟨3, by simp⟩

theorem mem_of_known {arch : String} {i : Nat}
    (h : (arch, i) ∈ [("x86", 0), ("p", 1), ("z", 2), ("arm", 3)]) :
    arch ∈ ["x86", "p", "z", "arm"] := by
  simp only [List.mem_cons, List.mem_singleton, List.not_mem_nil, or_false, Prod.mk.injEq] at h
  rcases h with ⟨ha, _⟩ | ⟨ha, _⟩ | ⟨ha, _⟩ | ⟨ha, _⟩ <;> subst ha <;> simp

/-- C1: `perArch` selects by the fixed mapping x86 -> 0, p -> 1, z -> 2, arm -> 3: when the
selector read from `SAMPLEARCH` has position `i` and more than `i` images are given, the result
is exactly `images[i]`; `perArch "a" "b" "c" "d"` is `"b"` for `p` and `"d"` for `arm`; and with
the variable unset the selector defaults to `x86` and the first image is returned. -/
theorem perArch_selects_by_position :
    (∀ (getenv : String → String → String) (images : List String) (arch : String) (i : Nat)
        (hi : i < images.length),
        getenv "SAMPLEARCH" "x86" = arch →
        (arch, i) ∈ [("x86", 0), ("p", 1), ("z", 2), ("arm", 3)] →
        perArch getenv images = .ok (images.get ⟨i, hi⟩))
    ∧ perArch (fun _ _ => "p") ["a", "b", "c", "d"] = .ok "b"
    ∧ perArch (fun _ _ => "arm") ["a", "b", "c", "d"] = .ok "d"
    ∧ (∀ (environ : String → Option String) (images : List String) (h0 : 0 < images.length),
        environ "SAMPLEARCH" = none →
        perArch (Getenv environ) images = .ok (images.get ⟨0, h0⟩)) := by
  refine ⟨?_, by decide, by decide, ?_⟩
  · intro getenv images arch i hi harch hmem
    subst harch
    rw [perArch_of_known getenv images i hmem, dif_pos hi]
  · intro environ images h0 hunset
    have hsel : Getenv environ "SAMPLEARCH" "x86" = "x86" := by simp [Getenv, hunset]
    rw [perArch_of_known (Getenv environ) images 0 (by simp [hsel]), dif_pos h0]

/-- C1, at a concrete input: selector `z` and three images give the third image. -/
theorem perArch_selects_by_position_witness :
    perArch (fun _ _ => "z") ["img-x86", "img-p", "img-z"] = .ok "img-z" :=
  perArch_selects_by_position.1 (fun _ _ => "z") ["img-x86", "img-p", "img-z"] "z" 2
    (by decide) rfl (by decide)

/-- C2: `perArch` fails with the unknown-architecture panic exactly when the selector is not one
of x86, p, z, arm; for such a selector the panic (with the selector in its message) is the
result for every image list, so no image is returned, and a recognised selector never gives
that panic. -/
theorem perArch_unknownArchitecture_iff (getenv : String → String → String)
    (images : List String) :
    (UnknownArchitecture (perArch getenv images) = true ↔
      getenv "SAMPLEARCH" "x86" ∉ ["x86", "p", "z", "arm"])
    ∧ (getenv "SAMPLEARCH" "x86" ∉ ["x86", "p", "z", "arm"] →
        perArch getenv images =
          .error (.panic ("unknown architecture: " ++ getenv "SAMPLEARCH" "x86"))) := by
  refine ⟨⟨?_, ?_⟩, perArch_of_unknown getenv images⟩
  · intro hU hmem
    obtain ⟨i, hi⟩ := known_of_mem hmem
    rw [perArch_of_known getenv images i hi] at hU
    split_ifs at hU with hlt
    · simp [UnknownArchitecture] at hU
    · rw [String.append_assoc, String.append_assoc, unknownArchitecture_noImage] at hU
      exact Bool.false_ne_true hU
  · intro h
    rw [perArch_of_unknown getenv images h]
    simp [UnknownArchitecture, String.data_append]

/-- C2, at concrete inputs: the selector `s390x` is not recognised, with no image and with
five. -/
theorem perArch_unknownArchitecture_iff_witness :
    perArch (fun _ _ => "s390x") [] = .error (.panic "unknown architecture: s390x")
    ∧ perArch (fun _ _ => "s390x") ["a", "b", "c", "d", "e"] =
        .error (.panic "unknown architecture: s390x") :=
  ⟨(perArch_unknownArchitecture_iff (fun _ _ => "s390x") []).2 (by decide),
   (perArch_unknownArchitecture_iff (fun _ _ => "s390x") ["a", "b", "c", "d", "e"]).2
     (by decide)⟩

/-- C3: `perArch` fails with the missing-image panic exactly when the selector is recognised
with position `i` and at most `i` images are given; with two images the selector `z`
(position 2) fails with it and the selector `p` (position 1) returns the second image. -/
theorem perArch_missingArchImage_iff (getenv : String → String → String)
    (images : List String) :
    (MissingArchImage (perArch getenv images) = true ↔
      ∃ i, (getenv "SAMPLEARCH" "x86", i) ∈ [("x86", 0), ("p", 1), ("z", 2), ("arm", 3)] ∧
        images.length ≤ i)
    ∧ perArch (fun _ _ => "z") ["a", "b"] = .error (.panic
        "no image specified for z in perArch function call (should be specified as parameter #2)")
    ∧ perArch (fun _ _ => "p") ["a", "b"] = .ok "b" := by
  refine ⟨⟨?_, ?_⟩, by decide, by decide⟩
  · intro hM
    by_cases hmem : getenv "SAMPLEARCH" "x86" ∈ ["x86", "p", "z", "arm"]
    · obtain ⟨i, hi⟩ := known_of_mem hmem
      refine ⟨i, hi, ?_⟩
      rw [perArch_of_known getenv images i hi] at hM
      split_ifs at hM with hlt
      · simp [MissingArchImage] at hM
      · exact Nat.le_of_not_lt hlt
    · rw [perArch_of_unknown getenv images hmem] at hM
      simp [MissingArchImage, String.data_append] at hM
  · rintro ⟨i, hi, hle⟩
    rw [perArch_of_known getenv images i hi, dif_neg (Nat.not_lt.mpr hle),
      String.append_assoc, String.append_assoc, missingArchImage_noImage]

/-- C3, at a concrete input: selector `arm` (position 3) with three images. -/
theorem perArch_missingArchImage_iff_witness :
    MissingArchImage (perArch (fun _ _ => "arm") ["a", "b", "c"]) = true :=
  (perArch_missingArchImage_iff (fun _ _ => "arm") ["a", "b", "c"]).1.2
    ⟨3, by decide, by decide⟩

/-! ## Decimal digits and the width of a directive -/

theorem utoaAux_fuel : ∀ (fuel fuel' n : Nat), n ≤ fuel → n ≤ fuel' →
    utoaAux fuel n = utoaAux fuel' n := by
  intro fuel
  induction fuel with
  | zero =>
    intro fuel' n hn _
    obtain rfl : n = 0 := Nat.le_zero.mp hn
    cases fuel' <;> rfl
  | succ fuel ih =>
    intro fuel' n hn hn'
    cases fuel' with
    | zero =>
      obtain rfl : n = 0 := Nat.le_zero.mp hn'
      rfl
    | succ fuel' =>
      simp only [utoaAux]
      split_ifs with hlt
      · rfl
      · rw [ih fuel' (n / 10) (by omega) (by omega)]

theorem utoaAux_eq_utoa (fuel n : Nat) (h : n ≤ fuel) : utoaAux fuel n = utoa n :=
  utoaAux_fuel fuel n n h (Nat.le_refl n)

theorem utoa_eq (n : Nat) :
    utoa n = if n < 10 then [digitChar n] else utoa (n / 10) ++ [digitChar (n % 10)] := by
  cases n with
  | zero => rfl
  | succ m =>
    have h2 : (m + 1) / 10 ≤ m := by omega
    simp only [utoa, utoaAux]
    rw [utoaAux_eq_utoa _ _ h2]
    rfl

theorem digitChar_isDigit (d : Nat) (h : d < 10) :
    (digitChar d).isDigit = true ∧ (digitChar d).toNat - 48 = d := by
  interval_cases d <;> decide

theorem digitChar_ne_zero (d : Nat) (h0 : 0 < d) (h : d < 10) : digitChar d ≠ '0' := by
  interval_cases d <;> decide

theorem doPrintf_flags_digit (f : Flags) (c : Char) (cs : List Char) (args : List Arg)
    (hd : c.isDigit = true) (h0 : c ≠ '0') :
    doPrintf (.flags f) (c :: cs) args = doPrintf (.width f (c.toNat - 48)) cs args := by
  have e1 : c ≠ '#' := by rintro rfl; exact absurd hd (by decide)
  have e2 : c ≠ '+' := by rintro rfl; exact absurd hd (by decide)
  have e3 : c ≠ '-' := by rintro rfl; exact absurd hd (by decide)
  have e4 : c ≠ ' ' := by rintro rfl; exact absurd hd (by decide)
  have e5 : c ≠ '[' := by rintro rfl; exact absurd hd (by decide)
  have e6 : c ≠ '*' := by rintro rfl; exact absurd hd (by decide)
  have e7 : c ≠ '.' := by rintro rfl; exact absurd hd (by decide)
  rw [doPrintf]
  simp [e1, e2, e3, e4, e5, e6, e7, h0, hd]

theorem doPrintf_width_digit (f : Flags) (n : Nat) (c : Char) (cs : List Char)
    (args : List Arg) (hd : c.isDigit = true) (hn : n ≤ 1000000) :
    doPrintf (.width f n) (c :: cs) args =
      doPrintf (.width f (n * 10 + (c.toNat - 48))) cs args := by
  rw [doPrintf]
  simp [hd, tooLarge, Nat.not_lt.mpr hn]

/-- Reading the decimal digits of a positive `n` as a width gives back `n`, as long as
`parsenum` never meets a `tooLarge` value before a further digit, that is `n / 10 ≤ 10^6`. -/
theorem doPrintf_flags_utoa (f : Flags) (rest : List Char) (args : List Arg) :
    ∀ n : Nat, 0 < n → n / 10 ≤ 1000000 →
      doPrintf (.flags f) (utoa n ++ rest) args = doPrintf (.width f n) rest args := by
  intro n
  induction n using Nat.strong_induction_on generalizing rest with
  | _ n ih =>
    intro hpos hle
    rw [utoa_eq]
    split_ifs with hlt
    · obtain ⟨hd, hv⟩ := digitChar_isDigit n hlt
      rw [List.singleton_append,
        doPrintf_flags_digit f _ rest args hd (digitChar_ne_zero n hpos hlt), hv]
    · have hq : 0 < n / 10 := by omega
      have hq' : n / 10 / 10 ≤ 1000000 := by omega
      obtain ⟨hd, hv⟩ := digitChar_isDigit (n % 10) (Nat.mod_lt _ (by decide))
      rw [List.append_assoc, List.singleton_append,
        ih (n / 10) (by omega) (digitChar (n % 10) :: rest) hq hq',
        doPrintf_width_digit f (n / 10) _ rest args hd hle, hv]
      congr 2
      omega

/-! ## `indent` -/

theorem itoa_natCast (n : Nat) : itoa (n : Int) = utoa n := rfl

theorem Sprintf_indentFormat (n : Nat) :
    Sprintf "%% %ds%%s" [.int n] = .ok (String.mk ('%' :: ' ' :: (utoa n ++ ['s', '%', 's']))) := by
  simp [Sprintf, doPrintf, verbStep, printArg, extra, Except.map, pure, Except.pure,
    itoa_natCast]

theorem doPrintf_pad (n : Nat) (hn : n ≤ 10000009) (line : String) :
    doPrintf .text ('%' :: ' ' :: (utoa n ++ ['s', '%', 's'])) [.str "", .str line] =
      .ok (List.replicate n ' ' ++ line.data) := by
  rcases Nat.eq_zero_or_pos n with h0 | hpos
  · subst h0
    have h0 : utoa 0 = ['0'] := by decide
    rw [h0]
    simp [doPrintf, verbStep, printArg, padString, extra, Except.map, pure, Except.pure]
  · have hne : n ≠ 0 := Nat.pos_iff_ne_zero.mp hpos
    have step : doPrintf .text ('%' :: ' ' :: (utoa n ++ ['s', '%', 's']))
        [.str "", .str line] =
        doPrintf (.flags { space := true }) (utoa n ++ ['s', '%', 's'])
          [.str "", .str line] := by
      simp [doPrintf]
    rw [step, doPrintf_flags_utoa _ _ _ n hpos (by omega)]
    simp [doPrintf, verbStep, printArg, padString, extra, Except.map, pure, Except.pure, hne]

theorem indentLine_of_le (n : Nat) (hn : n ≤ 10000009) (line : String) :
    indentLine n line = .ok (String.mk (List.replicate n ' ') ++ line) := by
  unfold indentLine
  rw [Sprintf_indentFormat]
  simp only [Sprintf]
  rw [doPrintf_pad n hn line]
  simp [Except.map, String.ext_iff, String.data_append]

theorem splitChars_ne_nil (sep : Char) (cs : List Char) : splitChars sep cs ≠ [] := by
  induction cs with
  | nil => simp [splitChars]
  | cons c cs ih =>
    simp only [splitChars]
    split_ifs
    · simp
    · cases h : splitChars sep cs with
      | nil => exact absurd h ih
      | cons piece pieces => simp

theorem splitChars_of_not_mem (sep : Char) (cs : List Char) (h : sep ∉ cs) :
    splitChars sep cs = [cs] := by
  induction cs with
  | nil => rfl
  | cons c cs ih =>
    have hc : c ≠ sep := fun e => h (e ▸ List.mem_cons_self c cs)
    have hcs : sep ∉ cs := fun e => h (List.mem_cons_of_mem c e)
    simp [splitChars, hc, ih hcs]

theorem Split_eq_cons (source : String) (sep : Char) :
    ∃ first rest, Split source sep = first :: rest := by
  cases h : Split source sep with
  | nil =>
    simp only [Split, List.map_eq_nil_iff] at h
    exact absurd h (splitChars_ne_nil sep source.data)
  | cons first rest => exact ⟨first, rest, rfl⟩

theorem indentFrom_succ (n : Nat) (hn : n ≤ 10000009) (lines : List String) (i : Nat) :
    indentFrom n (i + 1) lines =
      .ok (lines.map (fun line => String.mk (List.replicate n ' ') ++ line)) := by
  induction lines generalizing i with
  | nil => rfl
  | cons line rest ih =>
    simp only [indentFrom, Nat.zero_lt_succ, if_true, indentLine_of_le n hn, ih (i + 1)]
    rfl

theorem indentFrom_zero (n : Nat) (hn : n ≤ 10000009) (first : String) (rest : List String) :
    indentFrom n 0 (first :: rest) =
      .ok (first :: rest.map (fun line => String.mk (List.replicate n ' ') ++ line)) := by
  simp only [indentFrom, Nat.lt_irrefl, if_false, indentFrom_succ n hn rest 0]
  rfl

/-- C4 (amended): for every `0 ≤ spaces ≤ 10000009` and every text, `indent` leaves the first
line (of the text split on the newline character) untouched and prefixes every later line,
empty ones included, with exactly `spaces` spaces, keeping the number and order of the lines;
`indent 2 "a\nb\nc"` is `"a\n  b\n  c"`; and, for every `spaces`, a text without a newline is
returned unchanged. -/
theorem indent_pads_later_lines :
    (∀ (n : Nat), n ≤ 10000009 → ∀ (source : String),
      ∃ first rest, Split source '\n' = first :: rest ∧
        indent n source =
          .ok (Join (first :: rest.map (fun line => String.mk (List.replicate n ' ') ++ line))
            "\n"))
    ∧ indent 2 "a\nb\nc" = .ok "a\n  b\n  c"
    ∧ (∀ (spaces : Int) (source : String), '\n' ∉ source.data →
        indent spaces source = .ok source) := by
  refine ⟨?_, by decide, ?_⟩
  · intro n hn source
    obtain ⟨first, rest, hsplit⟩ := Split_eq_cons source '\n'
    refine ⟨first, rest, hsplit, ?_⟩
    simp only [indent, hsplit, indentFrom_zero n hn first rest]
    rfl
  · intro spaces source hnl
    simp only [indent, Split, splitChars_of_not_mem _ _ hnl]
    rfl

/-- C4 (amended), at a concrete input: four spaces in front of the second and of the empty
third line. -/
theorem indent_pads_later_lines_witness :
    ∃ first rest, Split "key:\n- x\n" '\n' = first :: rest ∧
      indent (4 : Nat) "key:\n- x\n" =
        .ok (Join (first :: rest.map (fun line => String.mk (List.replicate 4 ' ') ++ line))
          "\n") :=
  indent_pads_later_lines.1 4 (by decide) "key:\n- x\n"

theorem diagnostics_ne_padded (k : Nat) (hk : 40 < k) :
    "a\n%!(NOVERB)%!(EXTRA string=, string=b)" ≠
      "a\n" ++ String.mk (List.replicate k ' ') ++ "b" := by
  intro heq
  have hlen := congrArg String.length heq
  rw [String.length_append, String.length_append] at hlen
  have h1 : ("a\n%!(NOVERB)%!(EXTRA string=, string=b)" : String).length = 39 := by decide
  have h2 : ("a\n" : String).length = 2 := by decide
  have h3 : ("b" : String).length = 1 := by decide
  have h4 : (String.mk (List.replicate k ' ')).length = k := by
    simp [String.length]
  rw [h1, h2, h3, h4] at hlen
  omega

/-- C4 as stated fails: the width `10000010` is refused by `fmt` (its first seven digits,
`1000001`, exceed `1e6` when the eighth digit is read), so the second line is replaced by the
diagnostics of `Sprintf` and not prefixed with 10000010 spaces. -/
theorem indent_width_too_large :
    indent 10000010 "a\nb" = .ok "a\n%!(NOVERB)%!(EXTRA string=, string=b)"
    ∧ indent 10000010 "a\nb" ≠ .ok ("a\n" ++ String.mk (List.replicate 10000010 ' ') ++ "b") := by
  have h : indent 10000010 "a\nb" = .ok "a\n%!(NOVERB)%!(EXTRA string=, string=b)" := by decide
  refine ⟨h, ?_⟩
  rw [h]
  intro heq
  exact diagnostics_ne_padded 10000010 (by omega) (Except.ok.inj heq)

/-! ## `until` -/

theorem take_succ_set (nums : List Int) (i : Nat) (v : Int) (h : i < nums.length) :
    (nums.set i v).take (i + 1) = nums.take i ++ [v] := by
  induction nums generalizing i with
  | nil => simp at h
  | cons a nums ih =>
    cases i with
    | zero => simp
    | succ i =>
      simp only [List.length_cons, Nat.add_lt_add_iff_right] at h
      simp [ih i h]

theorem untilFill_eq (k : Nat) : ∀ (i : Nat) (nums : List Int), nums.length = i + k →
    untilFill k i nums = nums.take i ++ (List.range' i k).map (fun (j : Nat) => (j : Int)) := by
  induction k with
  | zero =>
    intro i nums h
    simp [untilFill, List.take_of_length_le (show nums.length ≤ i by omega)]
  | succ k ih =>
    intro i nums h
    have hlen : (nums.set i (i : Int)).length = (i + 1) + k := by
      rw [List.length_set]; omega
    rw [untilFill, ih (i + 1) _ hlen, take_succ_set nums i _ (by omega)]
    simp [List.range'_succ]

theorem until_eq_range (maxAlloc n : Nat) (hmax : maxAlloc < 2 ^ 64) (hn : 8 * n ≤ maxAlloc) :
    until_ maxAlloc n = .ok ((List.range n).map (fun (j : Nat) => (j : Int))) := by
  have hfill := untilFill_eq n 0 (List.replicate n 0) (by simp)
  simp only [List.take_zero, List.nil_append] at hfill
  have hcond : ¬ ((n : Int) < 0 ∨ 2 ^ 64 ≤ 8 * ((n : Int)).toNat ∨
      maxAlloc < 8 * ((n : Int)).toNat) := by
    rw [Int.toNat_natCast]
    omega
  rw [until_, if_neg hcond, Int.toNat_natCast, hfill, List.range_eq_range']
  rfl

/-- C5 (amended): for every `n ≥ 0` whose slice fits the allocation limit of the Go runtime
(`8 * n ≤ maxAlloc`, with `maxAlloc < 2^64`), `until n` returns a list of exactly `n` integers
whose element at index `i` is `i`, that is `0, 1, ..., n-1` in increasing order, and `until 0`
is empty. The result is a value determined by `n`, so a second call gives the same sequence. -/
theorem until_counts_up (maxAlloc n : Nat) (hmax : maxAlloc < 2 ^ 64)
    (hn : 8 * n ≤ maxAlloc) :
    (∃ nums : List Int, until_ maxAlloc n = .ok nums ∧ nums.length = n ∧
      ∀ (i : Nat) (h : i < nums.length), nums.get ⟨i, h⟩ = (i : Int))
    ∧ until_ maxAlloc n = .ok ((List.range n).map (fun (j : Nat) => (j : Int)))
    ∧ until_ maxAlloc 0 = .ok [] := by
  refine ⟨⟨_, until_eq_range maxAlloc n hmax hn, by simp, ?_⟩,
    until_eq_range maxAlloc n hmax hn, until_eq_range maxAlloc 0 hmax (by omega)⟩
  intro i h
  simp

/-- C5 (amended), at a concrete input: `until 5` on a 64-bit Linux. -/
theorem until_counts_up_witness :
    (∃ nums : List Int, until_ maxAlloc64 ((5 : Nat) : Int) = .ok nums ∧ nums.length = 5 ∧
      ∀ (i : Nat) (h : i < nums.length), nums.get ⟨i, h⟩ = (i : Int))
    ∧ until_ maxAlloc64 ((5 : Nat) : Int) =
        .ok ((List.range 5).map (fun (j : Nat) => (j : Int)))
    ∧ until_ maxAlloc64 0 = .ok [] :=
  until_counts_up maxAlloc64 5 (by decide) (by decide)

/-- C5 as stated fails: on a 64-bit Linux `until(1 << 46)` asks `make` for `1 << 49` bytes,
more than `maxAlloc = 1 << 48`, and panics with `makeslice: len out of range` where the claim
promises a sequence of `1 << 46` integers. -/
theorem until_beyond_allocation_limit :
    (0 : Int) ≤ 2 ^ 46
    ∧ until_ maxAlloc64 (2 ^ 46) =
        .error (Stop.panic "runtime error: makeslice: len out of range") := by
  decide

/-! ## Runs -/

theorem run_pure {σ α : Type} (a : α) (s : Sys σ) : (pure a : Run σ α) s = (.ok a, s) := rfl

theorem run_bind {σ α β : Type} (m : Run σ α) (f : α → Run σ β) (s : Sys σ) :
    (m >>= f) s =
      match m s with
      | (.ok a, s') => f a s'
      | (.error e, s') => (.error e, s') := rfl

theorem run_liftExcept_ok {σ α : Type} (a : α) (s : Sys σ) :
    (liftExcept (.ok a) : Run σ α) s = (.ok a, s) := rfl

/-- The model agrees with the test suite of Go's `fmt` on an over-long width: the case
`Sprintf("%2147483648d", 42) = "%!(NOVERB)%!(EXTRA int=42)"` of `fmt_test.go`. -/
theorem Sprintf_width_overflow :
    Sprintf "%2147483648d" [.int 42] = .ok "%!(NOVERB)%!(EXTRA int=42)" := by
  decide

theorem doPrintf_text_of_no_percent (cs : List Char) (h : '%' ∉ cs) :
    doPrintf .text cs [] = .ok cs := by
  induction cs with
  | nil => rfl
  | cons c cs ih =>
    have hc : c ≠ '%' := fun e => h (e ▸ List.mem_cons_self c cs)
    have hcs : '%' ∉ cs := fun e => h (List.mem_cons_of_mem c e)
    simp [doPrintf, hc, ih hcs, Except.map]

/-- A format without `%` and without operands is returned as it is. -/
theorem Sprintf_of_no_percent (format : String) (h : '%' ∉ format.data) :
    Sprintf format [] = .ok format := by
  simp [Sprintf, doPrintf_text_of_no_percent _ h, Except.map]

theorem ocCommand_eq (subCommand ns yamlFileName kubeconfig : String) :
    ocCommand subCommand ns yamlFileName kubeconfig =
      .ok (if ns = "" then
          "oc " ++ subCommand ++ " -f " ++ yamlFileName ++ " --kubeconfig=" ++ kubeconfig
        else
          "oc " ++ subCommand ++ " -n " ++ ns ++ " -f " ++ yamlFileName ++ " --kubeconfig=" ++
            kubeconfig) := by
  unfold ocCommand
  split_ifs <;>
    simp [Sprintf, doPrintf, verbStep, printArg, padString, extra, Except.map, pure,
      Except.pure, String.ext_iff, String.data_append]

/-- C6, where the code departs from it: `OcApply` hands the command built by `ocCommand` to
`util.Shell` as a format. For the manifest file `100%cpu.yaml` the command built is
`oc apply -n istio-system -f 100%cpu.yaml --kubeconfig=/kube/config`, but the command run is
`oc apply -n istio-system -f 100%!c(MISSING)pu.yaml --kubeconfig=/kube/config`; likewise for
`OcDelete`. -/
theorem OcApply_percent_in_file_name :
    ocCommand "apply" "istio-system" "100%cpu.yaml" "/kube/config" =
      .ok "oc apply -n istio-system -f 100%cpu.yaml --kubeconfig=/kube/config"
    ∧ execsOf (OcApply (scriptedHost (fun _ _ => ("", none))) "istio-system" "100%cpu.yaml"
        "/kube/config" (Sys.init 0)).2.trace =
      [{ command :=
          "oc apply -n istio-system -f 100%!c(MISSING)pu.yaml --kubeconfig=/kube/config",
         env := none, stdin := none }]
    ∧ execsOf (OcDelete (scriptedHost (fun _ _ => ("", none))) "istio-system" "100%cpu.yaml"
        "/kube/config" (Sys.init 0)).2.trace =
      [{ command :=
          "oc delete -n istio-system -f 100%!c(MISSING)pu.yaml --kubeconfig=/kube/config",
         env := none, stdin := none }] := by
  decide

theorem Shell_of_format {σ : Type} (h : Host σ) (format command : String) (args : List Arg)
    (hf : Sprintf format args = .ok command) (s : Sys σ) :
    Shell h format args s =
      (.ok (h.combinedOutput { command := command, env := none, stdin := none } s.world).1,
       { s with
         world := (h.combinedOutput { command := command, env := none, stdin := none } s.world).2
         trace := s.trace ++ [Event.exec { command := command, env := none, stdin := none }
           (h.combinedOutput { command := command, env := none, stdin := none } s.world).1.1
           (h.combinedOutput { command := command, env := none, stdin := none } s.world).1.2] }) := by
  simp only [Shell, run_bind, hf, run_liftExcept_ok]
  rfl

/-- When the command built by `ocCommand` holds no `%`, `OcApply` runs exactly that command,
once, and returns the error of the run. -/
theorem OcApply_of_no_percent {σ : Type} (h : Host σ) (ns yamlFileName kubeconfig cmd : String)
    (hcmd : ocCommand "apply" ns yamlFileName kubeconfig = .ok cmd) (hp : '%' ∉ cmd.data)
    (s : Sys σ) :
    OcApply h ns yamlFileName kubeconfig s =
      (.ok (h.combinedOutput { command := cmd, env := none, stdin := none } s.world).1.2,
       { s with
         world := (h.combinedOutput { command := cmd, env := none, stdin := none } s.world).2
         trace := s.trace ++ [Event.exec { command := cmd, env := none, stdin := none }
           (h.combinedOutput { command := cmd, env := none, stdin := none } s.world).1.1
           (h.combinedOutput { command := cmd, env := none, stdin := none } s.world).1.2] }) := by
  simp only [OcApply, run_bind, hcmd, run_liftExcept_ok,
    Shell_of_format h cmd cmd [] (Sprintf_of_no_percent cmd hp) s]
  rfl

/-! ## `GetOCPIngressgateway` -/

theorem Sprintf_routesFormat (podLabel ns kubeconfig : String) :
    Sprintf routesFormat [.str podLabel, .str ns, .str kubeconfig] =
      .ok (routesCommand podLabel ns kubeconfig) := by
  simp [routesFormat, routesCommand, Sprintf, doPrintf, verbStep, printArg, padString, extra,
    Except.map, pure, Except.pure, String.ext_iff, String.data_append]

theorem execsOf_append (xs ys : List Event) : execsOf (xs ++ ys) = execsOf xs ++ execsOf ys := by
  induction xs with
  | nil => rfl
  | cons e xs ih => cases e <;> simp [execsOf, ih]

theorem sleepsOf_append (xs ys : List Event) :
    sleepsOf (xs ++ ys) = sleepsOf xs ++ sleepsOf ys := by
  induction xs with
  | nil => rfl
  | cons e xs ih => cases e <;> simp [sleepsOf, ih]

theorem execsOf_attemptTrace {σ : Type} (h : Host σ) (p : Proc) (m : Nat) (w : σ) :
    execsOf (attemptTrace h p m w) = List.replicate (m + 1) p := by
  induction m generalizing w with
  | zero => rfl
  | succ m ih => simp [attemptTrace, execsOf, ih, List.replicate_succ]

theorem sleepsOf_attemptTrace {σ : Type} (h : Host σ) (p : Proc) (m : Nat) (w : σ) :
    sleepsOf (attemptTrace h p m w) = List.replicate m 5 := by
  induction m generalizing w with
  | zero => rfl
  | succ m ih => simp [attemptTrace, sleepsOf, ih, List.replicate_succ]

theorem retryRoutes_done {σ : Type} (h : Host σ) (query : Run σ (String × Option String))
    (k : Nat) (r : String × Option String) (hr : r.2 = none) :
    retryRoutes h query k r = pure r := by
  cases k with
  | zero => rfl
  | succ k =>
    rw [retryRoutes]
    exact if_pos hr

theorem retryRoutes_again {σ : Type} (h : Host σ) (query : Run σ (String × Option String))
    (k : Nat) (r : String × Option String) (hr : r.2 ≠ none) :
    retryRoutes h query (k + 1) r =
      (Sleep h 5 >>= fun _ => query >>= fun r' => retryRoutes h query k r') := by
  rw [retryRoutes]
  exact if_neg hr

/-- The state after the command `p` was run in the world `w`, on top of the trace `tr`. -/
theorem retryRoutes_step {σ : Type} (h : Host σ) (query : Run σ (String × Option String))
    (p : Proc)
    (hshell : ∀ s : Sys σ, query s =
      (.ok (h.combinedOutput p s.world).1,
       { world := (h.combinedOutput p s.world).2
         trace := s.trace ++
           [Event.exec p (h.combinedOutput p s.world).1.1 (h.combinedOutput p s.world).1.2]
         failures := s.failures }))
    (k : Nat) (r : String × Option String) (hr : r.2 ≠ none) (s : Sys σ) :
    retryRoutes h query (k + 1) r s =
      retryRoutes h query k (h.combinedOutput p (h.elapse 5 s.world)).1
        { world := (h.combinedOutput p (h.elapse 5 s.world)).2
          trace := s.trace ++ [Event.sleep 5] ++
            [Event.exec p (h.combinedOutput p (h.elapse 5 s.world)).1.1
              (h.combinedOutput p (h.elapse 5 s.world)).1.2]
          failures := s.failures } := by
  rw [retryRoutes_again h query k r hr, run_bind]
  simp only [Sleep, run_bind, hshell]

/-- The retry loop entered after a first attempt made in world `w`: when attempt `m + 1` is
the first without error and at least `m` iterations are left, the loop ends with the outcome of
that attempt, after `m` further sleeps and queries. -/
theorem retryRoutes_success {σ : Type} (h : Host σ) (query : Run σ (String × Option String))
    (p : Proc)
    (hshell : ∀ s : Sys σ, query s =
      (.ok (h.combinedOutput p s.world).1,
       { world := (h.combinedOutput p s.world).2
         trace := s.trace ++
           [Event.exec p (h.combinedOutput p s.world).1.1 (h.combinedOutput p s.world).1.2]
         failures := s.failures }))
    (m : Nat) : ∀ (retries : Nat) (w : σ) (tr : List Event) (fl : List String),
    m ≤ retries →
    (∀ j, j < m → (attempt h p j w).1.2 ≠ none) →
    (attempt h p m w).1.2 = none →
    retryRoutes h query retries (h.combinedOutput p w).1
      { world := (h.combinedOutput p w).2
        trace := tr ++ attemptTrace h p 0 w
        failures := fl } =
    (.ok (attempt h p m w).1,
     { world := (attempt h p m w).2
       trace := tr ++ attemptTrace h p m w
       failures := fl }) := by
  induction m with
  | zero =>
    intro retries w tr fl _ _ hok
    have hok' : (h.combinedOutput p w).1.2 = none := hok
    rw [retryRoutes_done h query retries _ hok']
    rfl
  | succ m ih =>
    intro retries w tr fl hle hfail hok
    cases retries with
    | zero => omega
    | succ k =>
      have h0 : (h.combinedOutput p w).1.2 ≠ none := hfail 0 (Nat.succ_pos m)
      rw [retryRoutes_step h query p hshell k _ h0]
      have := ih k (h.elapse 5 (h.combinedOutput p w).2)
        (tr ++ [Event.exec p (h.combinedOutput p w).1.1 (h.combinedOutput p w).1.2,
          Event.sleep 5]) fl (by omega)
        (fun j hj => hfail (j + 1) (by omega)) hok
      simpa [attempt, attemptTrace, List.append_assoc] using this

/-- The retry loop entered after a first attempt made in world `w`, when every attempt fails:
all `retries` iterations run and the loop ends with the outcome of the last attempt. -/
theorem retryRoutes_exhausted {σ : Type} (h : Host σ) (query : Run σ (String × Option String))
    (p : Proc)
    (hshell : ∀ s : Sys σ, query s =
      (.ok (h.combinedOutput p s.world).1,
       { world := (h.combinedOutput p s.world).2
         trace := s.trace ++
           [Event.exec p (h.combinedOutput p s.world).1.1 (h.combinedOutput p s.world).1.2]
         failures := s.failures }))
    (retries : Nat) : ∀ (w : σ) (tr : List Event) (fl : List String),
    (∀ j, j < retries → (attempt h p j w).1.2 ≠ none) →
    retryRoutes h query retries (h.combinedOutput p w).1
      { world := (h.combinedOutput p w).2
        trace := tr ++ attemptTrace h p 0 w
        failures := fl } =
    (.ok (attempt h p retries w).1,
     { world := (attempt h p retries w).2
       trace := tr ++ attemptTrace h p retries w
       failures := fl }) := by
  induction retries with
  | zero =>
    intro w tr fl _
    rfl
  | succ k ih =>
    intro w tr fl hfail
    have h0 : (h.combinedOutput p w).1.2 ≠ none := hfail 0 (Nat.succ_pos k)
    rw [retryRoutes_step h query p hshell k _ h0]
    have := ih (h.elapse 5 (h.combinedOutput p w).2)
      (tr ++ [Event.exec p (h.combinedOutput p w).1.1 (h.combinedOutput p w).1.2,
        Event.sleep 5]) fl
      (fun j hj => hfail (j + 1) (by omega))
    simpa [attempt, attemptTrace, List.append_assoc] using this

theorem Shell_routes {σ : Type} (h : Host σ) (podLabel ns kubeconfig : String) (s : Sys σ) :
    Shell h routesFormat [.str podLabel, .str ns, .str kubeconfig] s =
      (.ok (h.combinedOutput
          { command := routesCommand podLabel ns kubeconfig, env := none, stdin := none }
          s.world).1,
       { world := (h.combinedOutput
            { command := routesCommand podLabel ns kubeconfig, env := none, stdin := none }
            s.world).2
         trace := s.trace ++
           [Event.exec
             { command := routesCommand podLabel ns kubeconfig, env := none, stdin := none }
             (h.combinedOutput
               { command := routesCommand podLabel ns kubeconfig, env := none, stdin := none }
               s.world).1.1
             (h.combinedOutput
               { command := routesCommand podLabel ns kubeconfig, env := none, stdin := none }
               s.world).1.2]
         failures := s.failures }) :=
  Shell_of_format h routesFormat _ _ (Sprintf_routesFormat podLabel ns kubeconfig) s

theorem GetOCPIngressgateway_eq {σ : Type} (h : Host σ) (testRetryTimes : Int)
    (podLabel ns kubeconfig : String) (s : Sys σ) (m : Nat)
    (hloop : retryRoutes h (Shell h routesFormat [.str podLabel, .str ns, .str kubeconfig])
      testRetryTimes.toNat (h.combinedOutput (routesProc podLabel ns kubeconfig) s.world).1
      { world := (h.combinedOutput (routesProc podLabel ns kubeconfig) s.world).2
        trace := s.trace ++ attemptTrace h (routesProc podLabel ns kubeconfig) 0 s.world
        failures := s.failures } =
      (.ok (attempt h (routesProc podLabel ns kubeconfig) m s.world).1,
       { world := (attempt h (routesProc podLabel ns kubeconfig) m s.world).2
         trace := s.trace ++ attemptTrace h (routesProc podLabel ns kubeconfig) m s.world
         failures := s.failures })) :
    GetOCPIngressgateway h testRetryTimes podLabel ns kubeconfig s =
      (.ok (if (attempt h (routesProc podLabel ns kubeconfig) m s.world).1.2 ≠ none
          then ("", (attempt h (routesProc podLabel ns kubeconfig) m s.world).1.2)
          else ((attempt h (routesProc podLabel ns kubeconfig) m s.world).1.1, none)),
       { world := (attempt h (routesProc podLabel ns kubeconfig) m s.world).2
         trace := s.trace ++ attemptTrace h (routesProc podLabel ns kubeconfig) m s.world
         failures := s.failures }) := by
  simp only [attemptTrace] at hloop
  simp only [GetOCPIngressgateway, run_bind, Shell_routes]
  simp only [routesProc] at hloop ⊢
  rw [hloop]
  simp only []
  split_ifs <;> rfl

/-- C7: the retry loop of `GetOCPIngressgateway` stops on the first success. For every `k`
within the budget (`1 ≤ k ≤ testRetryTimes + 1`), if the route query fails on attempts
`1 .. k-1` and succeeds on attempt `k`, the function returns the output of attempt `k` with no
error, and what it did is exactly `k` runs of the query and `k - 1` sleeps of 5 seconds. -/
theorem GetOCPIngressgateway_stops_on_first_success {σ : Type} (h : Host σ)
    (testRetryTimes : Int) (podLabel ns kubeconfig : String) (s : Sys σ) (k : Nat)
    (hk : 1 ≤ k) (hbudget : (k : Int) ≤ testRetryTimes + 1)
    (hfail : ∀ j, j + 1 < k →
      (attempt h (routesProc podLabel ns kubeconfig) j s.world).1.2 ≠ none)
    (hok : (attempt h (routesProc podLabel ns kubeconfig) (k - 1) s.world).1.2 = none) :
    ∃ s' evs,
      GetOCPIngressgateway h testRetryTimes podLabel ns kubeconfig s =
        (.ok ((attempt h (routesProc podLabel ns kubeconfig) (k - 1) s.world).1.1, none), s')
      ∧ s'.trace = s.trace ++ evs
      ∧ execsOf evs = List.replicate k (routesProc podLabel ns kubeconfig)
      ∧ sleepsOf evs = List.replicate (k - 1) 5 := by
  obtain ⟨m, rfl⟩ : ∃ m, k = m + 1 := ⟨k - 1, by omega⟩
  simp only [Nat.add_sub_cancel] at hok ⊢
  have hle : m ≤ testRetryTimes.toNat := by omega
  have hloop := retryRoutes_success h
    (Shell h routesFormat [.str podLabel, .str ns, .str kubeconfig])
    (routesProc podLabel ns kubeconfig) (Shell_routes h podLabel ns kubeconfig) m
    testRetryTimes.toNat s.world s.trace s.failures hle
    (fun j hj => hfail j (by omega)) hok
  refine ⟨{ world := (attempt h (routesProc podLabel ns kubeconfig) m s.world).2,
             trace := s.trace ++ attemptTrace h (routesProc podLabel ns kubeconfig) m s.world,
             failures := s.failures },
    attemptTrace h (routesProc podLabel ns kubeconfig) m s.world, ?_, rfl,
    execsOf_attemptTrace h _ m s.world, sleepsOf_attemptTrace h _ m s.world⟩
  rw [GetOCPIngressgateway_eq h testRetryTimes podLabel ns kubeconfig s m hloop]
  simp [hok]

/-- C7, at a concrete input: a budget of 3, two failures and success on the third attempt give
the host of the third attempt, three runs and two sleeps of 5 seconds. -/
theorem GetOCPIngressgateway_stops_on_first_success_witness :
    ∃ s' evs,
      GetOCPIngressgateway
        (scriptedHost (fun _ n => if n < 2 then ("", some "exit status 1")
          else ("gw.example.com", none)))
        3 "app=gw" "istio-system" "/kube/config" (Sys.init 0) =
        (.ok ((attempt
          (scriptedHost (fun _ n => if n < 2 then ("", some "exit status 1")
            else ("gw.example.com", none)))
          (routesProc "app=gw" "istio-system" "/kube/config") (3 - 1)
          (Sys.init 0).world).1.1, none), s')
      ∧ s'.trace = (Sys.init 0).trace ++ evs
      ∧ execsOf evs = List.replicate 3 (routesProc "app=gw" "istio-system" "/kube/config")
      ∧ sleepsOf evs = List.replicate (3 - 1) 5 :=
  GetOCPIngressgateway_stops_on_first_success _ 3 "app=gw" "istio-system" "/kube/config"
    (Sys.init 0) 3 (by decide) (by decide)
    (fun j hj => by
      have hj' : j < 2 := by omega
      interval_cases j <;> decide)
    (by decide)

/-- C8 (amended): when `testRetryTimes = N ≥ 0` and the route query always fails,
`GetOCPIngressgateway` returns the empty host with the error of the last attempt, and what it
did is exactly `N + 1` runs of the query (the first one and `N` retries) and `N` sleeps of 5
seconds. -/
theorem GetOCPIngressgateway_exhausted {σ : Type} (h : Host σ) (N : Nat)
    (podLabel ns kubeconfig : String) (s : Sys σ)
    (hfail : ∀ j, j ≤ N →
      (attempt h (routesProc podLabel ns kubeconfig) j s.world).1.2 ≠ none) :
    ∃ s' evs,
      GetOCPIngressgateway h (N : Int) podLabel ns kubeconfig s =
        (.ok ("", (attempt h (routesProc podLabel ns kubeconfig) N s.world).1.2), s')
      ∧ (attempt h (routesProc podLabel ns kubeconfig) N s.world).1.2 ≠ none
      ∧ s'.trace = s.trace ++ evs
      ∧ execsOf evs = List.replicate (N + 1) (routesProc podLabel ns kubeconfig)
      ∧ sleepsOf evs = List.replicate N 5 := by
  have hloop := retryRoutes_exhausted h
    (Shell h routesFormat [.str podLabel, .str ns, .str kubeconfig])
    (routesProc podLabel ns kubeconfig) (Shell_routes h podLabel ns kubeconfig) N
    s.world s.trace s.failures (fun j hj => hfail j (by omega))
  refine ⟨{ world := (attempt h (routesProc podLabel ns kubeconfig) N s.world).2,
             trace := s.trace ++ attemptTrace h (routesProc podLabel ns kubeconfig) N s.world,
             failures := s.failures },
    attemptTrace h (routesProc podLabel ns kubeconfig) N s.world, ?_,
    hfail N (Nat.le_refl N), rfl,
    execsOf_attemptTrace h _ N s.world, sleepsOf_attemptTrace h _ N s.world⟩
  have hN : ((N : Int)).toNat = N := Int.toNat_natCast N
  rw [← hN] at hloop
  rw [GetOCPIngressgateway_eq h (N : Int) podLabel ns kubeconfig s N hloop]
  simp [hfail N (Nat.le_refl N)]

/-- C8 (amended), at a concrete input: `testRetryTimes = 1` and a query that always fails. -/
theorem GetOCPIngressgateway_exhausted_witness :
    ∃ s' evs,
      GetOCPIngressgateway (scriptedHost (fun _ _ => ("", some "exit status 1"))) ((1 : Nat) : Int)
        "app=gw" "istio-system" "/kube/config" (Sys.init 0) =
        (.ok ("", (attempt (scriptedHost (fun _ _ => ("", some "exit status 1")))
          (routesProc "app=gw" "istio-system" "/kube/config") 1 (Sys.init 0).world).1.2), s')
      ∧ (attempt (scriptedHost (fun _ _ => ("", some "exit status 1")))
          (routesProc "app=gw" "istio-system" "/kube/config") 1 (Sys.init 0).world).1.2 ≠ none
      ∧ s'.trace = (Sys.init 0).trace ++ evs
      ∧ execsOf evs = List.replicate (1 + 1) (routesProc "app=gw" "istio-system" "/kube/config")
      ∧ sleepsOf evs = List.replicate 1 5 :=
  GetOCPIngressgateway_exhausted _ 1 "app=gw" "istio-system" "/kube/config" (Sys.init 0)
    (fun j hj => by interval_cases j <;> decide)

/-- C8 as stated fails: with `testRetryTimes = 3` and a route query that always fails,
`GetOCPIngressgateway` runs the query 4 times and sleeps 3 times, not 3 times and twice. -/
theorem GetOCPIngressgateway_three_retries :
    (GetOCPIngressgateway (scriptedHost (fun _ _ => ("", some "exit status 1"))) 3
        "app=gw" "istio-system" "/kube/config" (Sys.init 0)).1 =
      .ok ("", some "exit status 1")
    ∧ (execsOf (GetOCPIngressgateway (scriptedHost (fun _ _ => ("", some "exit status 1"))) 3
        "app=gw" "istio-system" "/kube/config" (Sys.init 0)).2.trace).length = 4
    ∧ sleepsOf (GetOCPIngressgateway (scriptedHost (fun _ _ => ("", some "exit status 1"))) 3
        "app=gw" "istio-system" "/kube/config" (Sys.init 0)).2.trace = [5, 5, 5] := by
  decide!

/-! ## `ExecuteWithEnvAndInput` -/

theorem Sprintf_commandFailed (cmd body err : String) :
    Sprintf "Command failed: %s\n%serror: %s" [.str cmd, .str body, .str err] =
      .ok ("Command failed: " ++ cmd ++ "\n" ++ body ++ "error: " ++ err) := by
  simp [Sprintf, doPrintf, verbStep, printArg, padString, extra, Except.map, pure, Except.pure,
    String.ext_iff, String.data_append]

theorem HasSuffix_append_newline (str : String) : HasSuffix (str ++ "\n") "\n" = true := by
  simp [HasSuffix, String.data_append, List.isSuffixOf, List.isPrefixOf]

theorem appendNewLine_spec (out : String) :
    (appendNewLine out = out ∨ appendNewLine out = out ++ "\n")
    ∧ (out = "" → appendNewLine out = "")
    ∧ (out ≠ "" → HasSuffix (appendNewLine out) "\n" = true) := by
  unfold appendNewLine
  by_cases h0 : out = ""
  · simp [h0]
  · by_cases h1 : HasSuffix out "\n" = true
    · simp [h0, h1]
    · simp [h0, h1, HasSuffix_append_newline]

theorem ExecuteWithEnvAndInput_of_error {σ : Type} (h : Host σ) (env : Option (List String))
    (cmd input : String) (checks : List (String → Run σ Unit)) (s : Sys σ) (e : String)
    (herr : (h.combinedOutput
      { command := cmd, env := env, stdin := if input = "" then none else some input }
      s.world).1.2 = some e) :
    ExecuteWithEnvAndInput h env cmd input checks s =
      (.error (.fatal ("Command failed: " ++ cmd ++ "\n" ++
          appendNewLine (h.combinedOutput
            { command := cmd, env := env, stdin := if input = "" then none else some input }
            s.world).1.1 ++ "error: " ++ e)),
       { world := (h.combinedOutput
            { command := cmd, env := env, stdin := if input = "" then none else some input }
            s.world).2
         trace := s.trace ++ [Event.exec
            { command := cmd, env := env, stdin := if input = "" then none else some input }
            (h.combinedOutput
              { command := cmd, env := env, stdin := if input = "" then none else some input }
              s.world).1.1
            (some e)]
         failures := s.failures }) := by
  simp only [ExecuteWithEnvAndInput, run_bind, execShellCommand, runProc, herr, Fatalf,
    Sprintf_commandFailed, run_liftExcept_ok]
  rfl

theorem Executef_of_format {σ : Type} (h : Host σ) (format cmd : String) (args : List Arg)
    (hf : Sprintf format args = .ok cmd) : Executef h format args = Execute h cmd [] := by
  funext s
  simp only [Executef, hf]
  rfl

/-- C9: when the shell process of `ExecuteWithEnvAndInput` returns an error `e`, the test is
stopped with the message `"Command failed: <cmd>\n"`, then the captured output ended by a
newline (nothing when the output is empty), then `"error: <e>"`; the command has been run
exactly once. `ExecuteWithEnv`, `ExecuteWithInput`, `Execute` and `Executef` are this function
at a nil environment, an empty input or a formatted command, so the same holds of them. -/
theorem ExecuteWithEnvAndInput_reports_output_and_error {σ : Type} (h : Host σ)
    (env : Option (List String)) (cmd input : String) (checks : List (String → Run σ Unit))
    (s : Sys σ) (e : String)
    (herr : (h.combinedOutput
      { command := cmd, env := env, stdin := if input = "" then none else some input }
      s.world).1.2 = some e) :
    (∃ body s',
      ExecuteWithEnvAndInput h env cmd input checks s =
        (.error (.fatal ("Command failed: " ++ cmd ++ "\n" ++ body ++ "error: " ++ e)), s')
      ∧ (body = (h.combinedOutput
            { command := cmd, env := env, stdin := if input = "" then none else some input }
            s.world).1.1
          ∨ body = (h.combinedOutput
            { command := cmd, env := env, stdin := if input = "" then none else some input }
            s.world).1.1 ++ "\n")
      ∧ ((h.combinedOutput
            { command := cmd, env := env, stdin := if input = "" then none else some input }
            s.world).1.1 = "" → body = "")
      ∧ ((h.combinedOutput
            { command := cmd, env := env, stdin := if input = "" then none else some input }
            s.world).1.1 ≠ "" → HasSuffix body "\n" = true)
      ∧ s'.trace = s.trace ++ [Event.exec
          { command := cmd, env := env, stdin := if input = "" then none else some input }
          (h.combinedOutput
            { command := cmd, env := env, stdin := if input = "" then none else some input }
            s.world).1.1
          (some e)])
    ∧ ExecuteWithEnv h env cmd checks = ExecuteWithEnvAndInput h env cmd "" checks
    ∧ ExecuteWithInput h cmd input checks = ExecuteWithEnvAndInput h none cmd input checks
    ∧ Execute h cmd checks = ExecuteWithEnvAndInput h none cmd "" checks
    ∧ (∀ (format : String) (args : List Arg), Sprintf format args = .ok cmd →
        Executef h format args = ExecuteWithEnvAndInput h none cmd "" []) := by
  obtain ⟨h1, h2, h3⟩ := appendNewLine_spec (h.combinedOutput
      { command := cmd, env := env, stdin := if input = "" then none else some input }
      s.world).1.1
  refine ⟨⟨_, _, ExecuteWithEnvAndInput_of_error h env cmd input checks s e herr,
    h1, h2, h3, rfl⟩, rfl, rfl, rfl, ?_⟩
  intro format args hf
  rw [Executef_of_format h format cmd args hf]
  rfl

/-- C9, at a concrete input: `oc get pods` prints a message without a final newline and exits
with status 1. -/
theorem ExecuteWithEnvAndInput_reports_output_and_error_witness :
    ∃ body s',
      ExecuteWithEnvAndInput
        (scriptedHost (fun _ _ => ("No resources found", some "exit status 1")))
        none "oc get pods" "" [] (Sys.init 0) =
        (.error (.fatal ("Command failed: " ++ "oc get pods" ++ "\n" ++ body ++ "error: " ++
          "exit status 1")), s')
      ∧ (body = "No resources found" ∨ body = "No resources found" ++ "\n")
      ∧ ("No resources found" = "" → body = "")
      ∧ ("No resources found" ≠ "" → HasSuffix body "\n" = true)
      ∧ s'.trace = (Sys.init 0).trace ++ [Event.exec
          { command := "oc get pods", env := none, stdin := none }
          "No resources found" (some "exit status 1")] :=
  (ExecuteWithEnvAndInput_reports_output_and_error
    (scriptedHost (fun _ _ => ("No resources found", some "exit status 1")))
    none "oc get pods" "" [] (Sys.init 0) "exit status 1" (by decide)).1

/-! ## The steps of `TestSMCPInstall` -/

theorem bind_of_ok {σ α β : Type} (m : Run σ α) (f : α → Run σ β) (s s1 : Sys σ) (a : α)
    (hm : m s = (.ok a, s1)) : (m >>= f) s = f a s1 := by
  rw [run_bind, hm]

theorem quiet_pure {σ α : Type} (a : α) : Quiet (pure a : Run σ α) :=
  fun s => ⟨a, s, rfl, rfl⟩

theorem quiet_bind {σ α β : Type} (m : Run σ α) (f : α → Run σ β) (hm : Quiet m)
    (hf : ∀ a, Quiet (f a)) : Quiet (m >>= f) := by
  intro s
  obtain ⟨a, s1, h1, hf1⟩ := hm s
  obtain ⟨b, s2, h2, hf2⟩ := hf a s1
  exact ⟨b, s2, by rw [bind_of_ok m f s s1 a h1, h2], by rw [hf2, hf1]⟩

theorem quiet_Shell {σ : Type} (h : Host σ) (format command : String) (args : List Arg)
    (hf : Sprintf format args = .ok command) : Quiet (Shell h format args) :=
  fun s => ⟨_, _, Shell_of_format h format command args hf s, rfl⟩

theorem quiet_KubeApplyContents {σ : Type} (u : Util σ) (ns contents : String) :
    Quiet (KubeApplyContents u ns contents) :=
  fun _ => ⟨_, _, rfl, rfl⟩

theorem quiet_Sleep {σ : Type} (h : Host σ) (d : Nat) : Quiet (Sleep h d) :=
  fun _ => ⟨_, _, rfl, rfl⟩

theorem quiet_liftExcept {σ α : Type} (a : α) : Quiet (liftExcept (.ok a) : Run σ α) :=
  fun s => ⟨a, s, rfl, rfl⟩

theorem Sprintf_newProject (ns : String) :
    Sprintf "oc new-project %s" [.str ns] = .ok ("oc new-project " ++ ns) := by
  simp [Sprintf, doPrintf, verbStep, printArg, padString, extra, Except.map, pure, Except.pure,
    String.ext_iff, String.data_append]

set_option maxRecDepth 4000 in
theorem Sprintf_patchFormat (ns name : String) :
    Sprintf patchFormat [.str ns, .str name] = .ok (patchCommand ns name) := by
  simp [patchFormat, patchCommand, Sprintf, doPrintf, verbStep, printArg, padString, extra,
    Except.map, pure, Except.pure, String.ext_iff, String.data_append]

theorem Sprintf_wait300 (c : Config) :
    Sprintf "oc wait --for condition=Ready -n %s smcp/%s --timeout 300s"
      [.str c.meshNamespace, .str c.smcpName] = .ok (waitProc c "300s").command := by
  simp [waitProc, Sprintf, doPrintf, verbStep, printArg, padString, extra, Except.map, pure,
    Except.pure, String.ext_iff, String.data_append]

theorem Sprintf_wait360 (c : Config) :
    Sprintf "oc wait --for condition=Ready -n %s smcp/%s --timeout 360s"
      [.str c.meshNamespace, .str c.smcpName] = .ok (waitProc c "360s").command := by
  simp [waitProc, Sprintf, doPrintf, verbStep, printArg, padString, extra, Except.map, pure,
    Except.pure, String.ext_iff, String.data_append]

theorem Sprintf_status (c : Config) :
    Sprintf "oc get -n %s smcp/%s -o wide" [.str c.meshNamespace, .str c.smcpName] =
      .ok (statusProc c).command := by
  simp [statusProc, Sprintf, doPrintf, verbStep, printArg, padString, extra, Except.map, pure,
    Except.pure, String.ext_iff, String.data_append]

theorem Sprintf_pods (c : Config) :
    Sprintf "oc get -n %s pods" [.str c.meshNamespace] = .ok (podsProc c).command := by
  simp [podsProc, Sprintf, doPrintf, verbStep, printArg, padString, extra, Except.map, pure,
    Except.pure, String.ext_iff, String.data_append]

theorem quiet_patchIdentity {σ : Type} (u : Util σ) (c : Config) : Quiet (patchIdentity u c) := by
  unfold patchIdentity
  split_ifs
  · exact quiet_bind _ _ (quiet_Shell _ _ _ _ (Sprintf_patchFormat _ _)) (fun _ => quiet_pure ())
  · exact quiet_pure ()

theorem quiet_createSMCP {σ : Type} (u : Util σ) (c : Config) (template manifest : String)
    (ht : RunTemplate u.engine template c.smcp = .ok manifest) :
    Quiet (createSMCP u c template) := by
  unfold createSMCP ShellMuteOutputError
  rw [ht]
  refine quiet_bind _ _ (quiet_Shell _ _ _ _ (Sprintf_newProject _)) (fun _ => ?_)
  refine quiet_bind _ _ (quiet_liftExcept manifest) (fun _ => ?_)
  refine quiet_bind _ _ (quiet_KubeApplyContents u _ _) (fun _ => ?_)
  exact quiet_bind _ _ (quiet_KubeApplyContents u _ _) (fun _ => quiet_patchIdentity u c)

theorem quiet_upgradeSMCP {σ : Type} (u : Util σ) (c : Config) (template manifest : String)
    (ht : RunTemplate u.engine template c.smcp = .ok manifest) :
    Quiet (upgradeSMCP u c template) := by
  unfold upgradeSMCP
  rw [ht]
  refine quiet_bind _ _ (quiet_liftExcept manifest) (fun _ => ?_)
  exact quiet_bind _ _ (quiet_KubeApplyContents u _ _) (fun _ => quiet_patchIdentity u c)

theorem quiet_waitForReady {σ : Type} (u : Util σ) (c : Config) (format command : String)
    (hf : Sprintf format [.str c.meshNamespace, .str c.smcpName] = .ok command) :
    Quiet (waitForReady u c format) :=
  quiet_bind _ _ (quiet_Shell _ _ _ _ hf) (fun _ => quiet_pure ())

theorem quiet_showStatusAndPods {σ : Type} (u : Util σ) (c : Config) :
    Quiet (showStatusAndPods u c) :=
  quiet_bind _ _ (quiet_Shell _ _ _ _ (Sprintf_status c)) (fun _ =>
    quiet_bind _ _ (quiet_Shell _ _ _ _ (Sprintf_pods c)) (fun _ => quiet_pure ()))

theorem statusProc_eta (c : Config) :
    ({ command := (statusProc c).command, env := none, stdin := none } : Proc) = statusProc c :=
  rfl

theorem podsProc_eta (c : Config) :
    ({ command := (podsProc c).command, env := none, stdin := none } : Proc) = podsProc c :=
  rfl

/-- The last block of a step: the two queries are run and a failure is recorded exactly when
the status text lacks the marker. -/
theorem verifyStatusAndPods_run {σ : Type} (u : Util σ) (c : Config) (s : Sys σ) :
    verifyStatusAndPods u c s =
      (.ok (),
       { world := (u.host.combinedOutput (podsProc c)
            (u.host.combinedOutput (statusProc c) s.world).2).2
         trace := s.trace ++
           [Event.exec (statusProc c) (u.host.combinedOutput (statusProc c) s.world).1.1
              (u.host.combinedOutput (statusProc c) s.world).1.2,
            Event.exec (podsProc c)
              (u.host.combinedOutput (podsProc c)
                (u.host.combinedOutput (statusProc c) s.world).2).1.1
              (u.host.combinedOutput (podsProc c)
                (u.host.combinedOutput (statusProc c) s.world).2).1.2]
         failures := s.failures ++
           if Contains (u.host.combinedOutput (statusProc c) s.world).1.1 "ComponentsReady"
           then [] else ["SMCP not Ready"] }) := by
  simp only [verifyStatusAndPods, run_bind, Shell_of_format _ _ _ _ (Sprintf_status c),
    statusProc_eta]
  cases hc : Contains (u.host.combinedOutput (statusProc c) s.world).1.1 "ComponentsReady"
  · simp [Error, run_bind, run_pure, Shell_of_format _ _ _ _ (Sprintf_pods c), podsProc_eta]
  · simp [run_bind, run_pure, Shell_of_format _ _ _ _ (Sprintf_pods c), podsProc_eta]

theorem podsProc_ne_statusProc (c : Config) : podsProc c ≠ statusProc c := by
  intro h
  have hd := congrArg (fun p : Proc => p.command.data) h
  simp [podsProc, statusProc, String.data_append] at hd

theorem lastOutput_status (c : Config) (tr : List Event) (msg o : String)
    (e e' : Option String) :
    lastOutput (statusProc c)
      (tr ++ [Event.exec (statusProc c) msg e, Event.exec (podsProc c) o e']) = msg := by
  simp [lastOutput, List.foldl_append, podsProc_ne_statusProc c]

theorem RecoverPanic_of_ok {σ : Type} (body : Run σ Unit) (s s' : Sys σ)
    (h : body s = (.ok (), s')) : RecoverPanic body s = (.ok (), s') := by
  simp [RecoverPanic, h]

theorem verify_after {σ : Type} (u : Util σ) (c : Config) (s s1 : Sys σ)
    (hf : s1.failures = s.failures) :
    ∃ s', verifyStatusAndPods u c s1 = (.ok (), s') ∧
      s'.failures = s.failures ++
        if Contains (lastOutput (statusProc c) s'.trace) "ComponentsReady" then []
        else ["SMCP not Ready"] := by
  refine ⟨_, verifyStatusAndPods_run u c s1, ?_⟩
  simp only [lastOutput_status, hf]

theorem installStep_run {σ : Type} (u : Util σ) (c : Config) (template manifest : String)
    (ht : RunTemplate u.engine template c.smcp = .ok manifest) (s : Sys σ) :
    ∃ s', installStep u c template s = (.ok (), s') ∧
      s'.failures = s.failures ++
        if Contains (lastOutput (statusProc c) s'.trace) "ComponentsReady" then []
        else ["SMCP not Ready"] := by
  obtain ⟨_, s1, h1, f1⟩ := quiet_createSMCP u c template manifest ht s
  obtain ⟨_, s2, h2, f2⟩ := quiet_waitForReady u c _ _ (Sprintf_wait300 c) s1
  obtain ⟨s', h3, f3⟩ := verify_after u c s s2 (by rw [f2, f1])
  refine ⟨s', RecoverPanic_of_ok _ s s' ?_, f3⟩
  rw [bind_of_ok _ _ s s1 _ h1, bind_of_ok _ _ s1 s2 _ h2, h3]

theorem upgradeStep_run {σ : Type} (u : Util σ) (c : Config)
    (fromTemplate toTemplate fromManifest toManifest : String)
    (hfrom : RunTemplate u.engine fromTemplate c.smcp = .ok fromManifest)
    (hto : RunTemplate u.engine toTemplate c.smcp = .ok toManifest) (s : Sys σ) :
    ∃ s', upgradeStep u c fromTemplate toTemplate s = (.ok (), s') ∧
      s'.failures = s.failures ++
        if Contains (lastOutput (statusProc c) s'.trace) "ComponentsReady" then []
        else ["SMCP not Ready"] := by
  obtain ⟨_, s1, h1, f1⟩ := quiet_createSMCP u c fromTemplate fromManifest hfrom s
  obtain ⟨_, s2, h2, f2⟩ := quiet_waitForReady u c _ _ (Sprintf_wait300 c) s1
  obtain ⟨_, s3, h3, f3⟩ := quiet_showStatusAndPods u c s2
  obtain ⟨_, s4, h4, f4⟩ := quiet_upgradeSMCP u c toTemplate toManifest hto s3
  obtain ⟨_, s5, h5, f5⟩ := quiet_Sleep u.host 10 s4
  obtain ⟨_, s6, h6, f6⟩ := quiet_waitForReady u c _ _ (Sprintf_wait360 c) s5
  obtain ⟨s', h7, f7⟩ := verify_after u c s s6 (by rw [f6, f5, f4, f3, f2, f1])
  refine ⟨s', RecoverPanic_of_ok _ s s' ?_, f7⟩
  rw [bind_of_ok _ _ s s1 _ h1, bind_of_ok _ _ s1 s2 _ h2, bind_of_ok _ _ s2 s3 _ h3,
    bind_of_ok _ _ s3 s4 _ h4, bind_of_ok _ _ s4 s5 _ h5, bind_of_ok _ _ s5 s6 _ h6, h7]

/-- C10 (amended): in every install and upgrade step of `TestSMCPInstall` whose templates
render, the step runs to its end and records a failure (`SMCP not Ready`) exactly when the
status text returned by its last `oc get -n <ns> smcp/<name> -o wide` lacks the marker
`ComponentsReady`; with the marker present no failure is recorded. The outcome of the readiness
wait `oc wait --for condition=Ready ...` is not looked at. -/
theorem smcp_step_fails_iff_marker_absent {σ : Type} (u : Util σ) (c : Config) (s : Sys σ)
    (m21 m22 m23 : String)
    (h21 : RunTemplate u.engine c.smcpV21_template c.smcp = .ok m21)
    (h22 : RunTemplate u.engine c.smcpV22_template c.smcp = .ok m22)
    (h23 : RunTemplate u.engine c.smcpV23_template c.smcp = .ok m23) :
    ∀ step ∈ [smcp_test_install_2_3 u c, smcp_test_install_2_2 u c, smcp_test_install_2_1 u c,
        smcp_test_upgrade_2_1_to_2_2 u c, smcp_test_upgrade_2_2_to_2_3 u c],
      ∃ s', step s = (.ok (), s') ∧
        s'.failures = s.failures ++
          if Contains (lastOutput (statusProc c) s'.trace) "ComponentsReady" then []
          else ["SMCP not Ready"] := by
  intro step hstep
  simp only [List.mem_cons, List.mem_singleton, List.not_mem_nil, or_false] at hstep
  rcases hstep with rfl | rfl | rfl | rfl | rfl
  · exact installStep_run u c _ m23 h23 s
  · exact installStep_run u c _ m22 h22 s
  · exact installStep_run u c _ m21 h21 s
  · exact upgradeStep_run u c _ _ m21 m22 h21 h22 s
  · exact upgradeStep_run u c _ _ m22 m23 h22 h23 s

/-- C10 (amended), at a concrete input: the install step of 2.3 on a simulated cluster whose
readiness wait fails and whose status text holds the marker. -/
theorem smcp_step_fails_iff_marker_absent_witness :
    ∃ s', smcp_test_install_2_3 (scriptedUtil waitFailsThenReady) sampleConfig (Sys.init 0) =
        (.ok (), s') ∧
      s'.failures = (Sys.init 0).failures ++
        if Contains (lastOutput (statusProc sampleConfig) s'.trace) "ComponentsReady" then []
        else ["SMCP not Ready"] :=
  smcp_step_fails_iff_marker_absent (scriptedUtil waitFailsThenReady) sampleConfig (Sys.init 0)
    "version: v2.1" "version: v2.2" "version: v2.3" rfl rfl rfl
    (smcp_test_install_2_3 (scriptedUtil waitFailsThenReady) sampleConfig)
    (List.mem_cons_self _ _)

/-- C10 as stated fails: on a simulated cluster the readiness wait of `smcp_test_install_2.3`
(and both waits of `smcp_test_upgrade_2.2_to_2.3`) end with an error, the status text holds
`ComponentsReady`, and the step records no failure. -/
theorem smcp_step_passes_though_wait_failed :
    (Event.exec (waitProc sampleConfig "300s")
        "error: timed out waiting for the condition on smcp/basic" (some "exit status 1")
      ∈ (smcp_test_install_2_3 (scriptedUtil waitFailsThenReady) sampleConfig
          (Sys.init 0)).2.trace)
    ∧ (smcp_test_install_2_3 (scriptedUtil waitFailsThenReady) sampleConfig
          (Sys.init 0)).1 = .ok ()
    ∧ (smcp_test_install_2_3 (scriptedUtil waitFailsThenReady) sampleConfig
          (Sys.init 0)).2.failures = []
    ∧ (Event.exec (waitProc sampleConfig "360s")
        "error: timed out waiting for the condition on smcp/basic" (some "exit status 1")
      ∈ (smcp_test_upgrade_2_2_to_2_3 (scriptedUtil waitFailsThenReady) sampleConfig
          (Sys.init 0)).2.trace)
    ∧ (smcp_test_upgrade_2_2_to_2_3 (scriptedUtil waitFailsThenReady) sampleConfig
          (Sys.init 0)).2.failures = [] := by
  decide!

/-! ## `indent` composed with itself -/

theorem splitChars_append_sep (sep : Char) (xs ys : List Char) (h : sep ∉ xs) :
    splitChars sep (xs ++ sep :: ys) = xs :: splitChars sep ys := by
  induction xs with
  | nil => simp [splitChars]
  | cons c xs ih =>
    have hc : c ≠ sep := fun e => h (e ▸ List.mem_cons_self c xs)
    have hxs : sep ∉ xs := fun e => h (List.mem_cons_of_mem c e)
    simp [splitChars, hc, ih hxs]

theorem splitChars_no_sep (sep : Char) (cs : List Char) :
    ∀ piece ∈ splitChars sep cs, sep ∉ piece := by
  induction cs with
  | nil => simp [splitChars]
  | cons c cs ih =>
    simp only [splitChars]
    split_ifs with hc
    · intro piece hp
      rcases List.mem_cons.mp hp with rfl | hp'
      · simp
      · exact ih piece hp'
    · cases hs : splitChars sep cs with
      | nil => exact absurd hs (splitChars_ne_nil sep cs)
      | cons p ps =>
        rw [hs] at ih
        intro piece hp
        rcases List.mem_cons.mp hp with rfl | hp'
        · intro hmem
          rcases List.mem_cons.mp hmem with e | e
          · exact hc e.symm
          · exact ih p (List.mem_cons_self p ps) e
        · exact ih piece (List.mem_cons_of_mem p hp')

theorem Split_no_newline (source : String) :
    ∀ line ∈ Split source '\n', '\n' ∉ line.data := by
  intro line hl
  simp only [Split, List.mem_map] at hl
  obtain ⟨piece, hp, rfl⟩ := hl
  exact splitChars_no_sep '\n' source.data piece hp

theorem Join_cons_cons (a b : String) (rest : List String) (sep : String) :
    Join (a :: b :: rest) sep = a ++ sep ++ Join (b :: rest) sep := rfl

/-- Splitting the joined lines gives the lines back, when no line holds a newline. -/
theorem Split_Join (lines : List String) (hne : lines ≠ [])
    (hnl : ∀ line ∈ lines, '\n' ∉ line.data) : Split (Join lines "\n") '\n' = lines := by
  induction lines with
  | nil => exact absurd rfl hne
  | cons a rest ih =>
    cases rest with
    | nil =>
      have ha := hnl a (List.mem_cons_self a [])
      simp [Split, Join, splitChars_of_not_mem _ _ ha]
    | cons b rest =>
      have ha := hnl a (List.mem_cons_self a _)
      have ih' := ih (by simp) (fun line hl => hnl line (List.mem_cons_of_mem a hl))
      simp only [Split] at ih' ⊢
      rw [Join_cons_cons, String.data_append, String.data_append]
      have hsep : ("\n" : String).data = ['\n'] := rfl
      rw [hsep, List.append_assoc, List.singleton_append, splitChars_append_sep _ _ _ ha,
        List.map_cons, ih']

theorem Join_prepend (c : Char) (p : List Char) (rest : List String) (sep : String) :
    (Join (String.mk (c :: p) :: rest) sep).data = c :: (Join (String.mk p :: rest) sep).data := by
  cases rest with
  | nil => rfl
  | cons q qs => simp [Join, String.data_append]

theorem Join_splitChars (cs : List Char) :
    (Join ((splitChars '\n' cs).map String.mk) "\n").data = cs := by
  induction cs with
  | nil => rfl
  | cons c cs ih =>
    cases hs : splitChars '\n' cs with
    | nil => exact absurd hs (splitChars_ne_nil '\n' cs)
    | cons p ps =>
      rw [hs] at ih
      simp only [splitChars, hs]
      split_ifs with hc
      · subst hc
        simp only [List.map_cons] at ih ⊢
        rw [Join_cons_cons, String.data_append, String.data_append, ih]
        rfl
      · simp only [List.map_cons] at ih ⊢
        rw [Join_prepend, ih]

/-- Joining the lines of a text gives the text back. -/
theorem Join_Split (source : String) : Join (Split source '\n') "\n" = source := by
  rw [String.ext_iff]
  exact Join_splitChars source.data

theorem indent_of_split (n : Nat) (hn : n ≤ 10000009) (source first : String)
    (rest : List String) (hsplit : Split source '\n' = first :: rest) :
    indent n source =
      .ok (Join (first :: rest.map (fun line => String.mk (List.replicate n ' ') ++ line))
        "\n") := by
  simp only [indent, hsplit, indentFrom_zero n hn first rest]
  rfl

theorem pad_no_newline (n : Nat) (line : String) (h : '\n' ∉ line.data) :
    '\n' ∉ (String.mk (List.replicate n ' ') ++ line).data := by
  rw [String.data_append]
  intro hmem
  rcases List.mem_append.mp hmem with hm | hm
  · exact absurd (List.eq_of_mem_replicate hm) (by decide)
  · exact h hm

theorem pad_pad (a b : Nat) (line : String) :
    String.mk (List.replicate a ' ') ++ (String.mk (List.replicate b ' ') ++ line) =
      String.mk (List.replicate (a + b) ' ') ++ line := by
  rw [String.ext_iff, String.data_append, String.data_append, String.data_append,
    ← List.append_assoc, List.append_replicate_replicate]

/-- C13 (amended): indentation composes additively within the widths `fmt` accepts: for every
`a ≥ 0`, `b ≥ 0` with `a + b ≤ 10000009` and every text `s`, `indent b s` returns a text `t`
with `indent a t = indent (a + b) s`; and `indent 0 s = s` for every text. -/
theorem indent_composes_additively :
    (∀ (a b : Nat), a + b ≤ 10000009 → ∀ (s : String),
      ∃ t, indent (b : Int) s = .ok t ∧ indent (a : Int) t = indent ((a : Int) + (b : Int)) s)
    ∧ (∀ (s : String), indent 0 s = .ok s) := by
  constructor
  · intro a b hab s
    obtain ⟨first, rest, hsplit⟩ := Split_eq_cons s '\n'
    have hlines := Split_no_newline s
    rw [hsplit] at hlines
    have hsplit' : Split (Join (first :: rest.map
        (fun line => String.mk (List.replicate b ' ') ++ line)) "\n") '\n' =
        first :: rest.map (fun line => String.mk (List.replicate b ' ') ++ line) := by
      apply Split_Join _ (by simp)
      intro line hl
      rcases List.mem_cons.mp hl with rfl | hl'
      · exact hlines _ (List.mem_cons_self _ _)
      · obtain ⟨l, hlr, rfl⟩ := List.mem_map.mp hl'
        exact pad_no_newline b l (hlines l (List.mem_cons_of_mem _ hlr))
    refine ⟨_, indent_of_split b (by omega) s first rest hsplit, ?_⟩
    have hcast : ((a : Int) + (b : Int)) = ((a + b : Nat) : Int) := by push_cast; rfl
    have hmap : (rest.map (fun line => String.mk (List.replicate b ' ') ++ line)).map
        (fun line => String.mk (List.replicate a ' ') ++ line) =
        rest.map (fun line => String.mk (List.replicate (a + b) ' ') ++ line) := by
      rw [List.map_map]
      exact List.map_congr_left (fun line _ => pad_pad a b line)
    rw [indent_of_split a (by omega) _ _ _ hsplit', hcast,
      indent_of_split (a + b) hab s first rest hsplit, hmap]
  · intro s
    obtain ⟨first, rest, hsplit⟩ := Split_eq_cons s '\n'
    have h0 := indent_of_split 0 (by omega) s first rest hsplit
    have hid : rest.map (fun line => String.mk (List.replicate 0 ' ') ++ line) = rest := by
      have : (fun line : String => String.mk (List.replicate 0 ' ') ++ line) = id := by
        funext line
        rw [String.ext_iff]
        simp [String.data_append]
      rw [this, List.map_id]
    rw [hid, ← hsplit, Join_Split] at h0
    exact h0

/-- C13 (amended), at a concrete input: indenting by 3 and then by 2 is indenting by 5. -/
theorem indent_composes_additively_witness :
    ∃ t, indent ((3 : Nat) : Int) "spec:\n  a: 1\n\nend" = .ok t ∧
      indent ((2 : Nat) : Int) t = indent (((2 : Nat) : Int) + ((3 : Nat) : Int))
        "spec:\n  a: 1\n\nend" :=
  indent_composes_additively.1 2 3 (by decide) "spec:\n  a: 1\n\nend"

/-- C13 as stated fails: `indent(1, "x\ny")` is `"x\n y"`, and `indent(10000010, ...)` of it
replaces the second line by the diagnostics of `Sprintf` with the operand `" y"`, while
`indent(10000010 + 1, "x\ny")` gives the diagnostics with the operand `"y"`. -/
theorem indent_composition_too_wide :
    indent 1 "x\ny" = .ok "x\n y"
    ∧ indent 10000010 "x\n y" = .ok "x\n%!(NOVERB)%!(EXTRA string=, string= y)"
    ∧ indent (10000010 + 1) "x\ny" = .ok "x\n%!(NOVERB)%!(EXTRA string=, string=y)"
    ∧ indent 10000010 "x\n y" ≠ indent (10000010 + 1) "x\ny" := by
  decide

/-! ## The regular expression of the port functions -/

theorem matchSeq_endText (pos : Nat) (input : List Char) :
    matchSeq [Re.endText] pos input = if input = [] then some [] else none := by
  simp [matchSeq]

/-- The repetition `[0-9]{min,max}` followed by the end of the text matches exactly the texts
of `min` to `max` digits, and matches all of them. -/
theorem matchRepeat_digits (max : Nat) : ∀ (min pos : Nat) (input : List Char),
    matchRepeat '0' '9' (fun _ input' => if input' = [] then some [] else none)
        max min pos input =
      if min ≤ input.length ∧ input.length ≤ max ∧ ∀ c ∈ input, '0' ≤ c ∧ c ≤ '9'
      then some input else none := by
  induction max with
  | zero =>
    intro min pos input
    simp only [matchRepeat]
    cases input with
    | nil => by_cases hm : min = 0 <;> simp [hm]
    | cons c cs => by_cases hm : min = 0 <;> simp [hm]
  | succ max ih =>
    intro min pos input
    cases input with
    | nil =>
      simp only [matchRepeat]
      by_cases hm : min = 0 <;> simp [hm]
    | cons c cs =>
      simp only [matchRepeat, ih]
      by_cases hc : '0' ≤ c ∧ c ≤ '9'
      · by_cases hrest : min - 1 ≤ cs.length ∧ cs.length ≤ max ∧ ∀ d ∈ cs, '0' ≤ d ∧ d ≤ '9'
        · have hall : min ≤ (c :: cs).length ∧ (c :: cs).length ≤ max + 1 ∧
              ∀ d ∈ c :: cs, '0' ≤ d ∧ d ≤ '9' := by
            refine ⟨by simp only [List.length_cons]; omega,
              by simp only [List.length_cons]; omega, ?_⟩
            intro d hd
            rcases List.mem_cons.mp hd with rfl | hd'
            · exact hc
            · exact hrest.2.2 d hd'
          rw [if_pos hc, if_pos hrest, if_pos hall]
          rfl
        · have hall : ¬ (min ≤ (c :: cs).length ∧ (c :: cs).length ≤ max + 1 ∧
              ∀ d ∈ c :: cs, '0' ≤ d ∧ d ≤ '9') := by
            rintro ⟨h1, h2, h3⟩
            apply hrest
            refine ⟨by simp only [List.length_cons] at h1; omega,
              by simp only [List.length_cons] at h2; omega, ?_⟩
            intro d hd
            exact h3 d (List.mem_cons_of_mem c hd)
          rw [if_pos hc, if_neg hrest, if_neg hall]
          by_cases hm : min = 0 <;> simp [hm]
      · have hall : ¬ (min ≤ (c :: cs).length ∧ (c :: cs).length ≤ max + 1 ∧
            ∀ d ∈ c :: cs, '0' ≤ d ∧ d ≤ '9') := by
          rintro ⟨_, _, h3⟩
          exact hc (h3 c (List.mem_cons_self c cs))
        rw [if_neg hc, if_neg hall]
        by_cases hm : min = 0 <;> simp [hm]

theorem matchSeq_portRegexp_zero (input : List Char) :
    matchSeq portRegexp 0 input =
      if 1 ≤ input.length ∧ input.length ≤ 5 ∧ ∀ c ∈ input, '0' ≤ c ∧ c ≤ '9'
      then some input else none := by
  simp only [portRegexp, matchSeq, if_true]
  exact matchRepeat_digits 5 1 0 input

theorem matchSeq_portRegexp_succ (pos : Nat) (input : List Char) :
    matchSeq portRegexp (pos + 1) input = none := by
  simp [portRegexp, matchSeq]

theorem findFrom_portRegexp_succ (input : List Char) :
    ∀ pos : Nat, findFrom portRegexp (pos + 1) input = none := by
  induction input with
  | nil =>
    intro pos
    simp [findFrom, matchSeq_portRegexp_succ]
  | cons c cs ih =>
    intro pos
    simp [findFrom, matchSeq_portRegexp_succ, ih]

/-- The expression `^[0-9]{1,5}$` finds the whole text when it is 1 to 5 digits, and nothing
otherwise. -/
theorem FindString_portRegexp (t : String) :
    FindString portRegexp t = if IsPortText t then t else "" := by
  have hfind : findFrom portRegexp 0 t.data =
      if 1 ≤ t.data.length ∧ t.data.length ≤ 5 ∧ ∀ c ∈ t.data, '0' ≤ c ∧ c ≤ '9'
      then some t.data else none := by
    cases t.data with
    | nil => simp [findFrom, matchSeq_portRegexp_zero]
    | cons c cs =>
      simp only [findFrom, matchSeq_portRegexp_zero, findFrom_portRegexp_succ]
      split_ifs <;> rfl
  unfold FindString IsPortText
  rw [hfind]
  split_ifs <;> rfl

/-! ## `strings.Trim` with the single quote as cutset -/

theorem quote_cutset :
    (fun c : Char => ("'" : String).data.contains c) = fun c => decide (c = '\x27') := by
  funext c
  have hq : ("'" : String).data = ['\x27'] := rfl
  rw [hq]
  by_cases hc : c = '\x27' <;> simp [hc]

theorem Trim_quote_data (s : String) :
    (Trim s "'").data =
      ((s.data.dropWhile (fun c => decide (c = '\x27'))).reverse.dropWhile
        (fun c => decide (c = '\x27'))).reverse := by
  unfold Trim
  rw [quote_cutset]

theorem dropWhile_quotes_append (a : Nat) (l : List Char) :
    (List.replicate a '\x27' ++ l).dropWhile (fun c => decide (c = '\x27')) =
      l.dropWhile (fun c => decide (c = '\x27')) := by
  induction a with
  | zero => rfl
  | succ a ih => simp [List.replicate_succ, List.dropWhile, ih]

theorem dropWhile_of_head (c : Char) (cs : List Char) (hc : c ≠ '\x27') :
    (c :: cs).dropWhile (fun c => decide (c = '\x27')) = c :: cs := by
  simp [List.dropWhile, hc]

theorem digit_ne_quote (c : Char) (h : '0' ≤ c ∧ c ≤ '9') : c ≠ '\x27' := by
  rintro rfl
  exact absurd h.1 (by decide)

theorem takeWhile_quotes (l : List Char) :
    l.takeWhile (fun c => decide (c = '\x27')) =
      List.replicate (l.takeWhile (fun c => decide (c = '\x27'))).length '\x27' := by
  apply List.eq_replicate_of_mem
  intro c hc
  simpa using List.mem_takeWhile_imp hc

/-- The text between the quotes is what `Trim` returns, when it is a port text. -/
theorem Trim_of_quoted (out digits : String) (hq : IsQuoted out digits)
    (hp : IsPortText digits) : Trim out "'" = digits := by
  obtain ⟨a, b, hdata⟩ := hq
  obtain ⟨h1, _, hall⟩ := hp
  rw [String.ext_iff, Trim_quote_data, hdata, List.append_assoc, dropWhile_quotes_append]
  cases hd : digits.data with
  | nil => rw [hd] at h1; simp at h1
  | cons x xs =>
    have hx : x ≠ '\x27' := digit_ne_quote x (hall x (hd ▸ List.mem_cons_self x xs))
    rw [List.cons_append, dropWhile_of_head x _ hx, ← List.cons_append, List.reverse_append,
      List.reverse_replicate, dropWhile_quotes_append]
    cases hr : (x :: xs).reverse with
    | nil => simp at hr
    | cons y ys =>
      have hy : y ∈ x :: xs := List.mem_reverse.mp (hr ▸ List.mem_cons_self y ys)
      have hy' : y ≠ '\x27' := digit_ne_quote y (hall y (hd ▸ hy))
      rw [dropWhile_of_head y _ hy', ← hr, List.reverse_reverse]

/-- Every text is what `Trim` returns of it, between some single quotes. -/
theorem quoted_Trim (out : String) : IsQuoted out (Trim out "'") := by
  have h1 := List.takeWhile_append_dropWhile (fun c => decide (c = '\x27')) out.data
  have h2 := List.takeWhile_append_dropWhile (fun c => decide (c = '\x27'))
    (out.data.dropWhile (fun c => decide (c = '\x27'))).reverse
  have h3 := congrArg List.reverse h2
  rw [List.reverse_append, List.reverse_reverse] at h3
  refine ⟨(out.data.takeWhile (fun c => decide (c = '\x27'))).length,
    ((out.data.dropWhile (fun c => decide (c = '\x27'))).reverse.takeWhile
      (fun c => decide (c = '\x27'))).length, ?_⟩
  rw [Trim_quote_data, ← takeWhile_quotes, List.append_assoc]
  conv_lhs => rw [← h1]
  congr 1
  conv_lhs => rw [← h3]
  congr 1
  conv_lhs => rw [takeWhile_quotes, List.reverse_replicate]

/-! ## `GetSecureIngressPort` and `GetTCPIngressPort` -/

set_option maxRecDepth 4000 in
theorem Sprintf_securePortFormat (ns serviceName kubeconfig : String) :
    Sprintf securePortFormat [.str ns, .str serviceName, .str kubeconfig] =
      .ok (portProc "https" ns serviceName kubeconfig).command := by
  simp [securePortFormat, portProc, portCommand, Sprintf, doPrintf, verbStep, printArg,
    padString, extra, Except.map, pure, Except.pure, String.ext_iff, String.data_append]

set_option maxRecDepth 4000 in
theorem Sprintf_tcpPortFormat (ns serviceName kubeconfig : String) :
    Sprintf tcpPortFormat [.str ns, .str serviceName, .str kubeconfig] =
      .ok (portProc "tcp" ns serviceName kubeconfig).command := by
  simp [tcpPortFormat, portProc, portCommand, Sprintf, doPrintf, verbStep, printArg,
    padString, extra, Except.map, pure, Except.pure, String.ext_iff, String.data_append]

theorem Sprintf_unableToFind (serviceName : String) :
    Sprintf "unable to find the port of %s" [.str serviceName] =
      .ok ("unable to find the port of " ++ serviceName) := by
  simp [Sprintf, doPrintf, verbStep, printArg, padString, extra, Except.map, pure, Except.pure,
    String.ext_iff, String.data_append]

theorem portProc_eta (portName ns serviceName kubeconfig : String) :
    ({ command := (portProc portName ns serviceName kubeconfig).command, env := none,
       stdin := none } : Proc) = portProc portName ns serviceName kubeconfig :=
  rfl

theorem IsPortText_ne_empty (digits : String) (hp : IsPortText digits) : digits ≠ "" := by
  rintro rfl
  exact absurd hp.1 (by decide)

theorem port_found (port digits : String) (hq : IsQuoted port digits)
    (hp : IsPortText digits) :
    FindString portRegexp digits ≠ "" ∧ Trim port "'" = digits := by
  refine ⟨?_, Trim_of_quoted port digits hq hp⟩
  rw [FindString_portRegexp, if_pos hp]
  exact IsPortText_ne_empty digits hp

theorem port_not_found (port : String)
    (hno : ¬ ∃ digits, IsQuoted port digits ∧ IsPortText digits) :
    FindString portRegexp (Trim port "'") = "" := by
  rw [FindString_portRegexp, if_neg]
  intro hp
  exact hno ⟨_, quoted_Trim port, hp⟩

/-- C12: `GetSecureIngressPort` and `GetTCPIngressPort` run their query once and succeed exactly
when the query succeeds and its output is 1 to 5 ASCII decimal digits between leading and
trailing single quotes; then they return exactly the digits. Otherwise they return the empty
string with an error: the error of the query, or `unable to find the port of <serviceName>`. -/
theorem ingress_port_checked {σ : Type} (h : Host σ) (ns serviceName kubeconfig : String)
    (s : Sys σ) :
    PortSpec h (GetSecureIngressPort h ns serviceName kubeconfig) "https" ns serviceName
      kubeconfig s
    ∧ PortSpec h (GetTCPIngressPort h ns serviceName kubeconfig) "tcp" ns serviceName
      kubeconfig s := by
  have hS := Shell_of_format h securePortFormat _ _
    (Sprintf_securePortFormat ns serviceName kubeconfig) s
  have hT := Shell_of_format h tcpPortFormat _ _
    (Sprintf_tcpPortFormat ns serviceName kubeconfig) s
  rw [portProc_eta] at hS hT
  refine ⟨⟨?_, ?_, ?_⟩, ⟨?_, ?_, ?_⟩⟩
  · intro e he
    simp only [GetSecureIngressPort, run_bind, hS, he]
    simp [run_pure]
  · intro he digits hq hp
    obtain ⟨hfind, htrim⟩ := port_found _ digits hq hp
    simp only [GetSecureIngressPort, run_bind, hS, he]
    simp [run_pure, hfind, htrim]
  · intro he hno
    have hfind := port_not_found _ hno
    simp only [GetSecureIngressPort, run_bind, hS, he]
    simp [run_pure, run_bind, hfind, Sprintf_unableToFind, run_liftExcept_ok]
  · intro e he
    simp only [GetTCPIngressPort, run_bind, hT, he]
    simp [run_pure]
  · intro he digits hq hp
    obtain ⟨hfind, htrim⟩ := port_found _ digits hq hp
    simp only [GetTCPIngressPort, run_bind, hT, he]
    simp [run_pure, hfind, htrim]
  · intro he hno
    have hfind := port_not_found _ hno
    simp only [GetTCPIngressPort, run_bind, hT, he]
    simp [run_pure, run_bind, hfind, Sprintf_unableToFind, run_liftExcept_ok]

/-- C12, at a concrete input: the output `'8443'` gives the port `8443`. -/
theorem ingress_port_checked_witness :
    ∃ s', GetSecureIngressPort (scriptedHost (fun _ _ => ("'8443'", none))) "istio-system"
        "istio-ingressgateway" "/kube/config" (Sys.init 0) = (.ok ("8443", none), s') :=
  ⟨_, (ingress_port_checked (scriptedHost (fun _ _ => ("'8443'", none))) "istio-system"
      "istio-ingressgateway" "/kube/config" (Sys.init 0)).1.2.1 rfl "8443" ⟨1, 1, rfl⟩
      ⟨by decide, by decide, by decide⟩⟩

/-! ## Rendering and the environment -/

theorem perArch_congr (getenv₁ getenv₂ : String → String → String) (images : List String)
    (hsel : getenv₁ "SAMPLEARCH" "x86" = getenv₂ "SAMPLEARCH" "x86") :
    perArch getenv₁ images = perArch getenv₂ images := by
  simp only [perArch, hsel]

theorem toYaml_congr {Ω V : Type} (marshal : Ambient Ω → V → Except String String)
    (render : V → String) (a₁ a₂ : Ambient Ω)
    (hmarshal : ∀ (a a' : Ambient Ω) (v : V), marshal a v = marshal a' v) (value : V) :
    toYaml marshal render a₁ value = toYaml marshal render a₂ value := by
  simp only [toYaml, hmarshal a₁ a₂ value]

theorem templateFuncMap_congr {Ω V : Type} (marshal : Ambient Ω → V → Except String String)
    (render : V → String) (maxAlloc : Nat) (a₁ a₂ : Ambient Ω)
    (hmarshal : ∀ (a a' : Ambient Ω) (v : V), marshal a v = marshal a' v)
    (hsel : Getenv a₁.environ "SAMPLEARCH" "x86" = Getenv a₂.environ "SAMPLEARCH" "x86") :
    templateFuncMap marshal render maxAlloc a₁ = templateFuncMap marshal render maxAlloc a₂ := by
  have hyaml : toYaml marshal render a₁ = toYaml marshal render a₂ :=
    funext (toYaml_congr marshal render a₁ a₂ hmarshal)
  have harch : perArch (Getenv a₁.environ) = perArch (Getenv a₂.environ) :=
    funext (fun images => perArch_congr _ _ images hsel)
  simp only [templateFuncMap, hyaml, harch]

/-- The engine form and the ambient form of `RunTemplate` are the same function. -/
theorem RunTemplate_engineIn {Ω V ι : Type} (lib : TextTemplate Ω V ι)
    (marshal : Ambient Ω → V → Except String String) (render : V → String) (maxAlloc : Nat)
    (a : Ambient Ω) (tmpl : String) (input : ι) :
    RunTemplate (lib.engineIn marshal render maxAlloc a) tmpl input =
      RunTemplateIn lib marshal render maxAlloc a tmpl input := by
  unfold RunTemplate RunTemplateIn TextTemplate.engineIn
  dsimp only
  cases lib.parse a tmpl with
  | error err => rfl
  | ok tt => rfl

/-- C11 (amended): rendering is deterministic given the template, the parameters and the
selector read from `SAMPLEARCH`, provided the libraries it calls are deterministic. When
`text/template` (parsing and executing) and `yaml.Marshal` give the same results in every
ambient state, two calls of `RunTemplate` with the same template and input, made in two ambient
states that give the same selector, return the same result; so do two such calls of `perArch`
with the same images and of `toYaml` with the same value. `indent` and `until` have no access
to the ambient state at all. -/
theorem rendering_depends_on_selector_only {Ω V ι : Type} (lib : TextTemplate Ω V ι)
    (marshal : Ambient Ω → V → Except String String) (render : V → String) (maxAlloc : Nat)
    (a₁ a₂ : Ambient Ω) (tmpl : String) (input : ι)
    (hparse : ∀ (a a' : Ambient Ω) (t : String), lib.parse a t = lib.parse a' t)
    (hexec : ∀ (a a' : Ambient Ω) (funcs : FuncMap V) (tt : lib.Template) (i : ι),
      lib.execute a funcs tt i = lib.execute a' funcs tt i)
    (hmarshal : ∀ (a a' : Ambient Ω) (v : V), marshal a v = marshal a' v)
    (hsel : Getenv a₁.environ "SAMPLEARCH" "x86" = Getenv a₂.environ "SAMPLEARCH" "x86") :
    RunTemplateIn lib marshal render maxAlloc a₁ tmpl input =
      RunTemplateIn lib marshal render maxAlloc a₂ tmpl input
    ∧ (∀ images : List String,
        perArch (Getenv a₁.environ) images = perArch (Getenv a₂.environ) images)
    ∧ (∀ value : V, toYaml marshal render a₁ value = toYaml marshal render a₂ value) := by
  refine ⟨?_, fun images => perArch_congr _ _ images hsel,
    toYaml_congr marshal render a₁ a₂ hmarshal⟩
  unfold RunTemplateIn
  rw [hparse a₁ a₂ tmpl, templateFuncMap_congr marshal render maxAlloc a₁ a₂ hmarshal hsel]
  cases lib.parse a₂ tmpl with
  | error err => rfl
  | ok tt => simp only [hexec a₁ a₂]

/-- C11 (amended), at a concrete input: an ambient state that sets `SAMPLEARCH=x86` and one
that leaves it unset render the same text. -/
theorem rendering_depends_on_selector_only_witness :
    RunTemplateIn (selectingTemplates Unit Unit) (fun _ _ => .ok "") (fun _ => "") maxAlloc64
        { environ := onlySampleArch "x86", rest := () } "img-x86" "img-p" =
      RunTemplateIn (selectingTemplates Unit Unit) (fun _ _ => .ok "") (fun _ => "") maxAlloc64
        { environ := fun _ => none, rest := () } "img-x86" "img-p"
    ∧ (∀ images : List String,
        perArch (Getenv (onlySampleArch "x86")) images = perArch (Getenv (fun _ => none)) images)
    ∧ (∀ value : Unit,
        toYaml (fun (_ : Ambient Unit) (_ : Unit) => (.ok "" : Except String String))
            (fun _ => "") { environ := onlySampleArch "x86", rest := () } value =
          toYaml (fun (_ : Ambient Unit) (_ : Unit) => (.ok "" : Except String String))
            (fun _ => "") { environ := fun _ => none, rest := () } value) :=
  rendering_depends_on_selector_only (selectingTemplates Unit Unit) (fun _ _ => .ok "")
    (fun _ => "") maxAlloc64 { environ := onlySampleArch "x86", rest := () }
    { environ := fun _ => none, rest := () } "img-x86" "img-p"
    (fun _ _ _ => rfl) (fun _ _ _ _ _ => rfl) (fun _ _ _ => rfl) rfl

/-- C11 as stated fails: two calls of `perArch` with the same images give `"a"` when
`SAMPLEARCH` is unset and `"b"` when it is `p`; a template that calls `perArch` renders
accordingly. -/
theorem perArch_reads_environment :
    perArch (Getenv (fun _ => none)) ["a", "b", "c", "d"] = .ok "a"
    ∧ perArch (Getenv (onlySampleArch "p")) ["a", "b", "c", "d"] = .ok "b"
    ∧ perArch (Getenv (fun _ => none)) ["a", "b", "c", "d"] ≠
        perArch (Getenv (onlySampleArch "p")) ["a", "b", "c", "d"] := by
  decide

end MaistraTestTool
